import Mathlib

/-!
Shallow embedding of the Shipping Rule Matching & Cost Evaluation Engine
(`backend/app/routers/shipping.py`, lines 199-437).

Modelling conventions:
* Python numbers are modelled exactly: `int` as `Int`; inside the safe
  expression evaluator, `float` follows IEEE-754 binary64 to the bit
  (values as the exact rationals binary64 can hold, round-to-nearest-even
  on every operation, signed infinities and NaN, silent overflow for
  `+ - * /` on floats, `OverflowError` for overflowing conversions,
  `int/int` quotients and float powers). In the engine's data dicts a
  `float` is carried as an exact rational, and `str(float)` renders the
  shortest round-tripping decimal exactly as CPython does.
* Heterogeneous Python dicts (`order`, line items, merged match records,
  cost-calculation contexts) are association lists `List (String × PyVal)`
  in insertion order, with first-occurrence lookup.
* Shipping profiles, match conditions and cost rules are records whose
  optional fields mirror the `.get(key, default)` accesses performed by
  the engine; a missing key is `none`.
* `eval(...)` on the whitelisted character set is modelled by an explicit
  lexer/parser/evaluator of the Python expressions writable in that
  charset: int/float literals, the Ellipsis literal `...` and empty-tuple
  displays, `+ - * / // **`, parentheses, unary signs, and chained
  comparisons `> < >= <= == !=` (links evaluated eagerly, which yields
  the same observable outcome as Python's short-circuiting under
  `eval_safe_expression`). Non-integer powers are computed by a 128-bit
  fixed-point `exp`/`ln` and carry an exactness flag `ex = false`; a
  complex power result is represented by its (always-true) truthiness.
* `str.lower()` is full Unicode lowercasing (a generated table of the
  simple mappings plus the `İ` special case).
* `re` regular expressions are modelled by a backtracking matcher over
  the constructs `re.compile` accepts: literals, `.`, classes (ranges,
  `\d \D \s \S \w \W` over generated Unicode tables, octal/hex escapes),
  `|`, greedy/lazy/possessive `* + ? {m,n}`, groups `( ) (?: ) (?P<n> )
  (?> )`, backreferences `\1`/`(?P=n)`, lookarounds, anchors
  `^ $ \A \Z \b \B`, inline flags `a i m s u x` (global and scoped),
  comments `(?#...)`, and sre's Unicode case-insensitive matching with
  its extra-cases table. Conditional patterns `(?(...)...)` and `\N{...}`
  named escapes are outside the modelled fragment (they map to a compile
  failure where Python accepts them).
* A Python exception is modelled as `Option.none`; fail-closed `except`
  blocks turn `none` into the documented fallback value.
-/

namespace ShipEngine

/-- A Python runtime value as it occurs in the engine's dicts. -/
inductive PyVal where
  | pstr (s : String)
  | pint (n : Int)
  | pfloat (q : ℚ)
  | pbool (b : Bool)
  | pnone
deriving DecidableEq, Repr, Inhabited

/-- A Python dict in insertion order; lookup takes the first occurrence
(keys are unique in every dict the engine builds or receives). -/
abbrev Dict := List (String × PyVal)

/-- `d.get(k, dflt)` where the engine may pass `k = None` (a missing
`'field'` key): `None` is never a key, so the default is returned. -/
def pyGet (d : Dict) (k : Option String) (dflt : PyVal) : PyVal :=
  match k with
  | none => dflt
  | some s => (List.lookup s d).getD dflt

/-- Simple (1:1) Unicode lowercase mapping, compressed as (lo, hi, step, delta) rows:
codepoints c with lo <= c <= hi and (c - lo) % step == 0 map to c + delta. Generated from
Python str.lower over all codepoints (with U+0130 mapped to its simple lowering U+0069). -/
def lowerRows : List (Nat × Nat × Nat × Int) := [
  (65, 90, 1, 32), (192, 214, 1, 32), (216, 222, 1, 32), (256, 302, 2, 1),
  (304, 304, 1, -199), (306, 310, 2, 1), (313, 327, 2, 1), (330, 374, 2, 1),
  (376, 376, 1, -121), (377, 381, 2, 1), (385, 385, 1, 210), (386, 388, 2, 1),
  (390, 390, 1, 206), (391, 391, 1, 1), (393, 394, 1, 205), (395, 395, 1, 1),
  (398, 398, 1, 79), (399, 399, 1, 202), (400, 400, 1, 203), (401, 401, 1, 1),
  (403, 403, 1, 205), (404, 404, 1, 207), (406, 406, 1, 211), (407, 407, 1, 209),
  (408, 408, 1, 1), (412, 412, 1, 211), (413, 413, 1, 213), (415, 415, 1, 214),
  (416, 420, 2, 1), (422, 422, 1, 218), (423, 423, 1, 1), (425, 425, 1, 218),
  (428, 428, 1, 1), (430, 430, 1, 218), (431, 431, 1, 1), (433, 434, 1, 217),
  (435, 437, 2, 1), (439, 439, 1, 219), (440, 440, 1, 1), (444, 444, 1, 1),
  (452, 452, 1, 2), (453, 453, 1, 1), (455, 455, 1, 2), (456, 456, 1, 1),
  (458, 458, 1, 2), (459, 475, 2, 1), (478, 494, 2, 1), (497, 497, 1, 2),
  (498, 500, 2, 1), (502, 502, 1, -97), (503, 503, 1, -56), (504, 542, 2, 1),
  (544, 544, 1, -130), (546, 562, 2, 1), (570, 570, 1, 10795), (571, 571, 1, 1),
  (573, 573, 1, -163), (574, 574, 1, 10792), (577, 577, 1, 1), (579, 579, 1, -195),
  (580, 580, 1, 69), (581, 581, 1, 71), (582, 590, 2, 1), (880, 882, 2, 1),
  (886, 886, 1, 1), (895, 895, 1, 116), (902, 902, 1, 38), (904, 906, 1, 37),
  (908, 908, 1, 64), (910, 911, 1, 63), (913, 929, 1, 32), (931, 939, 1, 32),
  (975, 975, 1, 8), (984, 1006, 2, 1), (1012, 1012, 1, -60), (1015, 1015, 1, 1),
  (1017, 1017, 1, -7), (1018, 1018, 1, 1), (1021, 1023, 1, -130), (1024, 1039, 1, 80),
  (1040, 1071, 1, 32), (1120, 1152, 2, 1), (1162, 1214, 2, 1), (1216, 1216, 1, 15),
  (1217, 1229, 2, 1), (1232, 1326, 2, 1), (1329, 1366, 1, 48), (4256, 4293, 1, 7264),
  (4295, 4295, 1, 7264), (4301, 4301, 1, 7264), (5024, 5103, 1, 38864), (5104, 5109, 1, 8),
  (7312, 7354, 1, -3008), (7357, 7359, 1, -3008), (7680, 7828, 2, 1), (7838, 7838, 1, -7615),
  (7840, 7934, 2, 1), (7944, 7951, 1, -8), (7960, 7965, 1, -8), (7976, 7983, 1, -8),
  (7992, 7999, 1, -8), (8008, 8013, 1, -8), (8025, 8031, 2, -8), (8040, 8047, 1, -8),
  (8072, 8079, 1, -8), (8088, 8095, 1, -8), (8104, 8111, 1, -8), (8120, 8121, 1, -8),
  (8122, 8123, 1, -74), (8124, 8124, 1, -9), (8136, 8139, 1, -86), (8140, 8140, 1, -9),
  (8152, 8153, 1, -8), (8154, 8155, 1, -100), (8168, 8169, 1, -8), (8170, 8171, 1, -112),
  (8172, 8172, 1, -7), (8184, 8185, 1, -128), (8186, 8187, 1, -126), (8188, 8188, 1, -9),
  (8486, 8486, 1, -7517), (8490, 8490, 1, -8383), (8491, 8491, 1, -8262), (8498, 8498, 1, 28),
  (8544, 8559, 1, 16), (8579, 8579, 1, 1), (9398, 9423, 1, 26), (11264, 11311, 1, 48),
  (11360, 11360, 1, 1), (11362, 11362, 1, -10743), (11363, 11363, 1, -3814), (11364, 11364, 1, -10727),
  (11367, 11371, 2, 1), (11373, 11373, 1, -10780), (11374, 11374, 1, -10749), (11375, 11375, 1, -10783),
  (11376, 11376, 1, -10782), (11378, 11378, 1, 1), (11381, 11381, 1, 1), (11390, 11391, 1, -10815),
  (11392, 11490, 2, 1), (11499, 11501, 2, 1), (11506, 11506, 1, 1), (42560, 42604, 2, 1),
  (42624, 42650, 2, 1), (42786, 42798, 2, 1), (42802, 42862, 2, 1), (42873, 42875, 2, 1),
  (42877, 42877, 1, -35332), (42878, 42886, 2, 1), (42891, 42891, 1, 1), (42893, 42893, 1, -42280),
  (42896, 42898, 2, 1), (42902, 42920, 2, 1), (42922, 42922, 1, -42308), (42923, 42923, 1, -42319),
  (42924, 42924, 1, -42315), (42925, 42925, 1, -42305), (42926, 42926, 1, -42308), (42928, 42928, 1, -42258),
  (42929, 42929, 1, -42282), (42930, 42930, 1, -42261), (42931, 42931, 1, 928), (42932, 42946, 2, 1),
  (42948, 42948, 1, -48), (42949, 42949, 1, -42307), (42950, 42950, 1, -35384), (42951, 42953, 2, 1),
  (42960, 42960, 1, 1), (42966, 42968, 2, 1), (42997, 42997, 1, 1), (65313, 65338, 1, 32),
  (66560, 66599, 1, 40), (66736, 66771, 1, 40), (66928, 66938, 1, 39), (66940, 66954, 1, 39),
  (66956, 66962, 1, 39), (66964, 66965, 1, 39), (68736, 68786, 1, 64), (71840, 71871, 1, 32),
  (93760, 93791, 1, 32), (125184, 125217, 1, 34)]

/-- Codepoint ranges matched by Python re \x5cw (Unicode word characters). -/
def wordRanges : List (Nat × Nat) := [
  (48, 57), (65, 90), (95, 95), (97, 122), (170, 170), (178, 179), (181, 181), (185, 186),
  (188, 190), (192, 214), (216, 246), (248, 705), (710, 721), (736, 740), (748, 748), (750, 750),
  (880, 884), (886, 887), (890, 893), (895, 895), (902, 902), (904, 906), (908, 908), (910, 929),
  (931, 1013), (1015, 1153), (1162, 1327), (1329, 1366), (1369, 1369), (1376, 1416), (1488, 1514), (1519, 1522),
  (1568, 1610), (1632, 1641), (1646, 1647), (1649, 1747), (1749, 1749), (1765, 1766), (1774, 1788), (1791, 1791),
  (1808, 1808), (1810, 1839), (1869, 1957), (1969, 1969), (1984, 2026), (2036, 2037), (2042, 2042), (2048, 2069),
  (2074, 2074), (2084, 2084), (2088, 2088), (2112, 2136), (2144, 2154), (2160, 2183), (2185, 2190), (2208, 2249),
  (2308, 2361), (2365, 2365), (2384, 2384), (2392, 2401), (2406, 2415), (2417, 2432), (2437, 2444), (2447, 2448),
  (2451, 2472), (2474, 2480), (2482, 2482), (2486, 2489), (2493, 2493), (2510, 2510), (2524, 2525), (2527, 2529),
  (2534, 2545), (2548, 2553), (2556, 2556), (2565, 2570), (2575, 2576), (2579, 2600), (2602, 2608), (2610, 2611),
  (2613, 2614), (2616, 2617), (2649, 2652), (2654, 2654), (2662, 2671), (2674, 2676), (2693, 2701), (2703, 2705),
  (2707, 2728), (2730, 2736), (2738, 2739), (2741, 2745), (2749, 2749), (2768, 2768), (2784, 2785), (2790, 2799),
  (2809, 2809), (2821, 2828), (2831, 2832), (2835, 2856), (2858, 2864), (2866, 2867), (2869, 2873), (2877, 2877),
  (2908, 2909), (2911, 2913), (2918, 2927), (2929, 2935), (2947, 2947), (2949, 2954), (2958, 2960), (2962, 2965),
  (2969, 2970), (2972, 2972), (2974, 2975), (2979, 2980), (2984, 2986), (2990, 3001), (3024, 3024), (3046, 3058),
  (3077, 3084), (3086, 3088), (3090, 3112), (3114, 3129), (3133, 3133), (3160, 3162), (3165, 3165), (3168, 3169),
  (3174, 3183), (3192, 3198), (3200, 3200), (3205, 3212), (3214, 3216), (3218, 3240), (3242, 3251), (3253, 3257),
  (3261, 3261), (3293, 3294), (3296, 3297), (3302, 3311), (3313, 3314), (3332, 3340), (3342, 3344), (3346, 3386),
  (3389, 3389), (3406, 3406), (3412, 3414), (3416, 3425), (3430, 3448), (3450, 3455), (3461, 3478), (3482, 3505),
  (3507, 3515), (3517, 3517), (3520, 3526), (3558, 3567), (3585, 3632), (3634, 3635), (3648, 3654), (3664, 3673),
  (3713, 3714), (3716, 3716), (3718, 3722), (3724, 3747), (3749, 3749), (3751, 3760), (3762, 3763), (3773, 3773),
  (3776, 3780), (3782, 3782), (3792, 3801), (3804, 3807), (3840, 3840), (3872, 3891), (3904, 3911), (3913, 3948),
  (3976, 3980), (4096, 4138), (4159, 4169), (4176, 4181), (4186, 4189), (4193, 4193), (4197, 4198), (4206, 4208),
  (4213, 4225), (4238, 4238), (4240, 4249), (4256, 4293), (4295, 4295), (4301, 4301), (4304, 4346), (4348, 4680),
  (4682, 4685), (4688, 4694), (4696, 4696), (4698, 4701), (4704, 4744), (4746, 4749), (4752, 4784), (4786, 4789),
  (4792, 4798), (4800, 4800), (4802, 4805), (4808, 4822), (4824, 4880), (4882, 4885), (4888, 4954), (4969, 4988),
  (4992, 5007), (5024, 5109), (5112, 5117), (5121, 5740), (5743, 5759), (5761, 5786), (5792, 5866), (5870, 5880),
  (5888, 5905), (5919, 5937), (5952, 5969), (5984, 5996), (5998, 6000), (6016, 6067), (6103, 6103), (6108, 6108),
  (6112, 6121), (6128, 6137), (6160, 6169), (6176, 6264), (6272, 6276), (6279, 6312), (6314, 6314), (6320, 6389),
  (6400, 6430), (6470, 6509), (6512, 6516), (6528, 6571), (6576, 6601), (6608, 6618), (6656, 6678), (6688, 6740),
  (6784, 6793), (6800, 6809), (6823, 6823), (6917, 6963), (6981, 6988), (6992, 7001), (7043, 7072), (7086, 7141),
  (7168, 7203), (7232, 7241), (7245, 7293), (7296, 7304), (7312, 7354), (7357, 7359), (7401, 7404), (7406, 7411),
  (7413, 7414), (7418, 7418), (7424, 7615), (7680, 7957), (7960, 7965), (7968, 8005), (8008, 8013), (8016, 8023),
  (8025, 8025), (8027, 8027), (8029, 8029), (8031, 8061), (8064, 8116), (8118, 8124), (8126, 8126), (8130, 8132),
  (8134, 8140), (8144, 8147), (8150, 8155), (8160, 8172), (8178, 8180), (8182, 8188), (8304, 8305), (8308, 8313),
  (8319, 8329), (8336, 8348), (8450, 8450), (8455, 8455), (8458, 8467), (8469, 8469), (8473, 8477), (8484, 8484),
  (8486, 8486), (8488, 8488), (8490, 8493), (8495, 8505), (8508, 8511), (8517, 8521), (8526, 8526), (8528, 8585),
  (9312, 9371), (9450, 9471), (10102, 10131), (11264, 11492), (11499, 11502), (11506, 11507), (11517, 11517), (11520, 11557),
  (11559, 11559), (11565, 11565), (11568, 11623), (11631, 11631), (11648, 11670), (11680, 11686), (11688, 11694), (11696, 11702),
  (11704, 11710), (11712, 11718), (11720, 11726), (11728, 11734), (11736, 11742), (11823, 11823), (12293, 12295), (12321, 12329),
  (12337, 12341), (12344, 12348), (12353, 12438), (12445, 12447), (12449, 12538), (12540, 12543), (12549, 12591), (12593, 12686),
  (12690, 12693), (12704, 12735), (12784, 12799), (12832, 12841), (12872, 12879), (12881, 12895), (12928, 12937), (12977, 12991),
  (13312, 19903), (19968, 42124), (42192, 42237), (42240, 42508), (42512, 42539), (42560, 42606), (42623, 42653), (42656, 42735),
  (42775, 42783), (42786, 42888), (42891, 42954), (42960, 42961), (42963, 42963), (42965, 42969), (42994, 43009), (43011, 43013),
  (43015, 43018), (43020, 43042), (43056, 43061), (43072, 43123), (43138, 43187), (43216, 43225), (43250, 43255), (43259, 43259),
  (43261, 43262), (43264, 43301), (43312, 43334), (43360, 43388), (43396, 43442), (43471, 43481), (43488, 43492), (43494, 43518),
  (43520, 43560), (43584, 43586), (43588, 43595), (43600, 43609), (43616, 43638), (43642, 43642), (43646, 43695), (43697, 43697),
  (43701, 43702), (43705, 43709), (43712, 43712), (43714, 43714), (43739, 43741), (43744, 43754), (43762, 43764), (43777, 43782),
  (43785, 43790), (43793, 43798), (43808, 43814), (43816, 43822), (43824, 43866), (43868, 43881), (43888, 44002), (44016, 44025),
  (44032, 55203), (55216, 55238), (55243, 55291), (63744, 64109), (64112, 64217), (64256, 64262), (64275, 64279), (64285, 64285),
  (64287, 64296), (64298, 64310), (64312, 64316), (64318, 64318), (64320, 64321), (64323, 64324), (64326, 64433), (64467, 64829),
  (64848, 64911), (64914, 64967), (65008, 65019), (65136, 65140), (65142, 65276), (65296, 65305), (65313, 65338), (65345, 65370),
  (65382, 65470), (65474, 65479), (65482, 65487), (65490, 65495), (65498, 65500), (65536, 65547), (65549, 65574), (65576, 65594),
  (65596, 65597), (65599, 65613), (65616, 65629), (65664, 65786), (65799, 65843), (65856, 65912), (65930, 65931), (66176, 66204),
  (66208, 66256), (66273, 66299), (66304, 66339), (66349, 66378), (66384, 66421), (66432, 66461), (66464, 66499), (66504, 66511),
  (66513, 66517), (66560, 66717), (66720, 66729), (66736, 66771), (66776, 66811), (66816, 66855), (66864, 66915), (66928, 66938),
  (66940, 66954), (66956, 66962), (66964, 66965), (66967, 66977), (66979, 66993), (66995, 67001), (67003, 67004), (67072, 67382),
  (67392, 67413), (67424, 67431), (67456, 67461), (67463, 67504), (67506, 67514), (67584, 67589), (67592, 67592), (67594, 67637),
  (67639, 67640), (67644, 67644), (67647, 67669), (67672, 67702), (67705, 67742), (67751, 67759), (67808, 67826), (67828, 67829),
  (67835, 67867), (67872, 67897), (67968, 68023), (68028, 68047), (68050, 68096), (68112, 68115), (68117, 68119), (68121, 68149),
  (68160, 68168), (68192, 68222), (68224, 68255), (68288, 68295), (68297, 68324), (68331, 68335), (68352, 68405), (68416, 68437),
  (68440, 68466), (68472, 68497), (68521, 68527), (68608, 68680), (68736, 68786), (68800, 68850), (68858, 68899), (68912, 68921),
  (69216, 69246), (69248, 69289), (69296, 69297), (69376, 69415), (69424, 69445), (69457, 69460), (69488, 69505), (69552, 69579),
  (69600, 69622), (69635, 69687), (69714, 69743), (69745, 69746), (69749, 69749), (69763, 69807), (69840, 69864), (69872, 69881),
  (69891, 69926), (69942, 69951), (69956, 69956), (69959, 69959), (69968, 70002), (70006, 70006), (70019, 70066), (70081, 70084),
  (70096, 70106), (70108, 70108), (70113, 70132), (70144, 70161), (70163, 70187), (70272, 70278), (70280, 70280), (70282, 70285),
  (70287, 70301), (70303, 70312), (70320, 70366), (70384, 70393), (70405, 70412), (70415, 70416), (70419, 70440), (70442, 70448),
  (70450, 70451), (70453, 70457), (70461, 70461), (70480, 70480), (70493, 70497), (70656, 70708), (70727, 70730), (70736, 70745),
  (70751, 70753), (70784, 70831), (70852, 70853), (70855, 70855), (70864, 70873), (71040, 71086), (71128, 71131), (71168, 71215),
  (71236, 71236), (71248, 71257), (71296, 71338), (71352, 71352), (71360, 71369), (71424, 71450), (71472, 71483), (71488, 71494),
  (71680, 71723), (71840, 71922), (71935, 71942), (71945, 71945), (71948, 71955), (71957, 71958), (71960, 71983), (71999, 71999),
  (72001, 72001), (72016, 72025), (72096, 72103), (72106, 72144), (72161, 72161), (72163, 72163), (72192, 72192), (72203, 72242),
  (72250, 72250), (72272, 72272), (72284, 72329), (72349, 72349), (72368, 72440), (72704, 72712), (72714, 72750), (72768, 72768),
  (72784, 72812), (72818, 72847), (72960, 72966), (72968, 72969), (72971, 73008), (73030, 73030), (73040, 73049), (73056, 73061),
  (73063, 73064), (73066, 73097), (73112, 73112), (73120, 73129), (73440, 73458), (73648, 73648), (73664, 73684), (73728, 74649),
  (74752, 74862), (74880, 75075), (77712, 77808), (77824, 78894), (82944, 83526), (92160, 92728), (92736, 92766), (92768, 92777),
  (92784, 92862), (92864, 92873), (92880, 92909), (92928, 92975), (92992, 92995), (93008, 93017), (93019, 93025), (93027, 93047),
  (93053, 93071), (93760, 93846), (93952, 94026), (94032, 94032), (94099, 94111), (94176, 94177), (94179, 94179), (94208, 100343),
  (100352, 101589), (101632, 101640), (110576, 110579), (110581, 110587), (110589, 110590), (110592, 110882), (110928, 110930), (110948, 110951),
  (110960, 111355), (113664, 113770), (113776, 113788), (113792, 113800), (113808, 113817), (119520, 119539), (119648, 119672), (119808, 119892),
  (119894, 119964), (119966, 119967), (119970, 119970), (119973, 119974), (119977, 119980), (119982, 119993), (119995, 119995), (119997, 120003),
  (120005, 120069), (120071, 120074), (120077, 120084), (120086, 120092), (120094, 120121), (120123, 120126), (120128, 120132), (120134, 120134),
  (120138, 120144), (120146, 120485), (120488, 120512), (120514, 120538), (120540, 120570), (120572, 120596), (120598, 120628), (120630, 120654),
  (120656, 120686), (120688, 120712), (120714, 120744), (120746, 120770), (120772, 120779), (120782, 120831), (122624, 122654), (123136, 123180),
  (123191, 123197), (123200, 123209), (123214, 123214), (123536, 123565), (123584, 123627), (123632, 123641), (124896, 124902), (124904, 124907),
  (124909, 124910), (124912, 124926), (124928, 125124), (125127, 125135), (125184, 125251), (125259, 125259), (125264, 125273), (126065, 126123),
  (126125, 126127), (126129, 126132), (126209, 126253), (126255, 126269), (126464, 126467), (126469, 126495), (126497, 126498), (126500, 126500),
  (126503, 126503), (126505, 126514), (126516, 126519), (126521, 126521), (126523, 126523), (126530, 126530), (126535, 126535), (126537, 126537),
  (126539, 126539), (126541, 126543), (126545, 126546), (126548, 126548), (126551, 126551), (126553, 126553), (126555, 126555), (126557, 126557),
  (126559, 126559), (126561, 126562), (126564, 126564), (126567, 126570), (126572, 126578), (126580, 126583), (126585, 126588), (126590, 126590),
  (126592, 126601), (126603, 126619), (126625, 126627), (126629, 126633), (126635, 126651), (127232, 127244), (130032, 130041), (131072, 173791),
  (173824, 177976), (177984, 178205), (178208, 183969), (183984, 191456), (194560, 195101), (196608, 201546)]

/-- Codepoint ranges matched by Python re \x5cd. -/
def digitRanges : List (Nat × Nat) := [
  (48, 57), (1632, 1641), (1776, 1785), (1984, 1993), (2406, 2415), (2534, 2543), (2662, 2671), (2790, 2799),
  (2918, 2927), (3046, 3055), (3174, 3183), (3302, 3311), (3430, 3439), (3558, 3567), (3664, 3673), (3792, 3801),
  (3872, 3881), (4160, 4169), (4240, 4249), (6112, 6121), (6160, 6169), (6470, 6479), (6608, 6617), (6784, 6793),
  (6800, 6809), (6992, 7001), (7088, 7097), (7232, 7241), (7248, 7257), (42528, 42537), (43216, 43225), (43264, 43273),
  (43472, 43481), (43504, 43513), (43600, 43609), (44016, 44025), (65296, 65305), (66720, 66729), (68912, 68921), (69734, 69743),
  (69872, 69881), (69942, 69951), (70096, 70105), (70384, 70393), (70736, 70745), (70864, 70873), (71248, 71257), (71360, 71369),
  (71472, 71481), (71904, 71913), (72016, 72025), (72784, 72793), (73040, 73049), (73120, 73129), (92768, 92777), (92864, 92873),
  (93008, 93017), (120782, 120831), (123200, 123209), (123632, 123641), (125264, 125273), (130032, 130041)]

/-- Codepoint ranges matched by Python re \x5cs. -/
def spaceRanges : List (Nat × Nat) := [
  (9, 13), (28, 32), (133, 133), (160, 160), (5760, 5760), (8192, 8202), (8232, 8233), (8239, 8239),
  (8287, 8287), (12288, 12288)]

/-- The extra case-insensitive equivalences used by CPython sre (re._casefix._EXTRA_CASES). -/
def extraCases : List (Nat × List Nat) := [
  (105, [305]),
  (115, [383]),
  (181, [956]),
  (305, [105]),
  (383, [115]),
  (837, [953, 8126]),
  (912, [8147]),
  (944, [8163]),
  (946, [976]),
  (949, [1013]),
  (952, [977]),
  (953, [837, 8126]),
  (954, [1008]),
  (956, [181]),
  (960, [982]),
  (961, [1009]),
  (962, [963]),
  (963, [962]),
  (966, [981]),
  (976, [946]),
  (977, [952]),
  (981, [966]),
  (982, [960]),
  (1008, [954]),
  (1009, [961]),
  (1013, [949]),
  (1074, [7296]),
  (1076, [7297]),
  (1086, [7298]),
  (1089, [7299]),
  (1090, [7300, 7301]),
  (1098, [7302]),
  (1123, [7303]),
  (7296, [1074]),
  (7297, [1076]),
  (7298, [1086]),
  (7299, [1089]),
  (7300, [1090, 7301]),
  (7301, [1090, 7300]),
  (7302, [1098]),
  (7303, [1123]),
  (7304, [42571]),
  (7777, [7835]),
  (7835, [7777]),
  (8126, [837, 953]),
  (8147, [912]),
  (8163, [944]),
  (42571, [7304]),
  (64261, [64262]),
  (64262, [64261])]

/-- Simple (1:1) Unicode lowercasing of one character (CPython sre's
`unicode_tolower`), with an ASCII fast path. -/
def charLowerSimple (c : Char) : Char :=
  let n := c.toNat
  if n < 128 then (if 65 ≤ n && n ≤ 90 then Char.ofNat (n + 32) else c)
  else
    match lowerRows.find? (fun r => r.1 ≤ n && n ≤ r.2.1 && (n - r.1) % r.2.2.1 == 0) with
    | some r => Char.ofNat (((n : Int) + r.2.2.2).toNat)
    | none => c

/-- Full Unicode `str.lower()`: the simple mapping at every character,
except U+0130 (LATIN CAPITAL LETTER I WITH DOT ABOVE), whose lowering is
the two characters `i` `U+0307`. -/
def strLower (s : String) : String :=
  String.mk ((s.toList.map (fun c =>
    if c.toNat = 304 then [Char.ofNat 105, Char.ofNat 775] else [charLowerSimple c])).flatten)

/-- ASCII-only lowercasing of one character (sre's `ascii_tolower`). -/
def asciiLower (c : Char) : Char :=
  if 65 ≤ c.toNat && c.toNat ≤ 90 then Char.ofNat (c.toNat + 32) else c

/-- The extra equivalents of a lowered codepoint under case-insensitive
matching. -/
def extrasOf (n : Nat) : List Nat :=
  (((extraCases.find? (fun kv => kv.1 == n)).map (fun kv => kv.2)).getD [])

/-- Is the codepoint in one of the (sorted, disjoint) ranges? -/
def inRanges (rs : List (Nat × Nat)) (n : Nat) : Bool :=
  rs.any (fun r => r.1 ≤ n && n ≤ r.2)

/-- `n` occurs as a contiguous run inside `h`. -/
def listIsInfixOf (n h : List Char) : Bool :=
  (List.range (h.length + 1)).any (fun i => n.isPrefixOf (h.drop i))

/-- Python `needle in hay` substring test. -/
def strContainsSub (hay needle : String) : Bool :=
  listIsInfixOf needle.toList hay.toList

/-- Python `hay.startswith (needle)`. -/
def strStarts (hay needle : String) : Bool :=
  needle.toList.isPrefixOf hay.toList

/-- Python `hay.endswith (needle)`. -/
def strEnds (hay needle : String) : Bool :=
  needle.toList.isSuffixOf hay.toList

/-- Value of a digit list read in base 10. -/
def digitsToNat (l : List Char) : Nat :=
  l.foldl (fun a c => a * 10 + (c.toNat - 48)) 0

/-! ### IEEE-754 binary64 core -/

/-- A Python `float`: a finite binary64 value (held as the exact rational it
denotes), an infinity, or a NaN. -/
inductive FV where
  | fin (q : ℚ)
  | inf
  | ninf
  | nan
deriving DecidableEq, Repr

/-- `2 ^ k` as a rational, for an integer exponent. -/
def pow2 (k : Int) : ℚ :=
  if 0 ≤ k then ((2 ^ k.toNat : Nat) : ℚ) else 1 / ((2 ^ (-k).toNat : Nat) : ℚ)

/-- Is `2 ^ k ≤ q` (as exact rationals)? -/
def p2le (k : Int) (q : ℚ) : Bool :=
  if 0 ≤ k then (q.den : Int) * ((2 ^ k.toNat : Nat) : Int) ≤ q.num
  else (q.den : Int) ≤ q.num * ((2 ^ (-k).toNat : Nat) : Int)

/-- `⌊log₂ n⌋` for a positive natural, by structural recursion (the
first argument is fuel bounded by `n` itself). -/
def natLog2F : Nat → Nat → Nat
  | 0, _ => 0
  | f + 1, n => if n ≤ 1 then 0 else natLog2F f (n / 2) + 1

/-- `⌊log₂ n⌋` (0 at 0). -/
def natLog2 (n : Nat) : Nat := natLog2F n n

/-- `⌊log₂ q⌋` for a positive rational. -/
def floorLog2 (q : ℚ) : Int :=
  let e : Int := (natLog2 q.num.natAbs : Int) - (natLog2 q.den : Int)
  if p2le (e + 1) q then e + 1 else if p2le e q then e else e - 1

/-- Nearest integer with ties to even. -/
def roundHalfEvenQ (q : ℚ) : Int :=
  let n := q.num
  let d : Int := (q.den : Int)
  let f := Int.fdiv n d
  let r := n - f * d
  if d < 2 * r then f + 1
  else if 2 * r < d then f
  else if f % 2 = 0 then f else f + 1

/-- Round an exact rational to the nearest binary64 value (round-to-nearest,
ties-to-even, subnormals included, overflow to the signed infinity), exactly
as IEEE 754 prescribes and CPython's float arithmetic performs. -/
def roundQ (q : ℚ) : FV :=
  if q = 0 then .fin 0
  else
    let x := |q|
    let e := floorLog2 x
    let p : Int := max (e - 52) (-1074)
    let m := roundHalfEvenQ (x / pow2 p)
    let v : ℚ := (m : ℚ) * pow2 p
    if ((2 ^ 1024 : Nat) : ℚ) ≤ v then (if 0 < q then .inf else .ninf)
    else .fin (if 0 < q then v else -v)

/-- `10 ^ k` as a rational, for an integer exponent. -/
def pow10 (k : Int) : ℚ :=
  if 0 ≤ k then ((10 ^ k.toNat : Nat) : ℚ) else 1 / ((10 ^ (-k).toNat : Nat) : ℚ)

/-- Is `10 ^ k ≤ q`? -/
def p10le (k : Int) (q : ℚ) : Bool :=
  if 0 ≤ k then (q.den : Int) * ((10 ^ k.toNat : Nat) : Int) ≤ q.num
  else (q.den : Int) ≤ q.num * ((10 ^ (-k).toNat : Nat) : Int)

/-- Raise a decimal-exponent estimate while it is too low. -/
def adjUp10 : Nat → Int → ℚ → Int
  | 0, k, _ => k
  | f + 1, k, q => if p10le (k + 1) q then adjUp10 f (k + 1) q else k

/-- Lower a decimal-exponent estimate while it is too high. -/
def adjDown10 : Nat → Int → ℚ → Int
  | 0, k, _ => k
  | f + 1, k, q => if p10le k q then k else adjDown10 f (k - 1) q

/-- `⌊log₁₀ q⌋` for a positive rational. -/
def floorLog10 (q : ℚ) : Int :=
  adjDown10 5 (adjUp10 5 (floorLog2 q * 301 / 1000) q) q

/-- The `p`-significant-digit decimal nearest `x` (with its adjusted
decimal exponent), if rounding that decimal back to binary64 recovers
`x`. -/
def reprTry (x : ℚ) (p : Nat) (e10 : Int) : Option (Nat × Int) :=
  let n0 := roundHalfEvenQ (x / pow10 (e10 - (p : Int) + 1))
  let pr : Nat × Int :=
    if n0 = ((10 ^ p : Nat) : Int) then (10 ^ (p - 1), e10 + 1) else (n0.toNat, e10)
  let c : ℚ := (pr.1 : ℚ) * pow10 (pr.2 - (p : Int) + 1)
  if roundQ c = .fin x || c = x then some pr else none

/-- A run of `k` zeros. -/
def zeros (k : Int) : String := String.mk (List.replicate k.toNat '0')

/-- Format a significand digit string and decimal exponent the way
CPython's `repr`/`str` formats a float: fixed notation for exponents in
`[-4, 16)`, scientific notation (with a sign and at least two exponent
digits) outside. -/
def fmtFloat (ds : String) (p : Nat) (e : Int) : String :=
  if -4 ≤ e && e < 16 then
    if (p : Int) - 1 ≤ e then ds ++ zeros (e - (p : Int) + 1) ++ ".0"
    else if 0 ≤ e then
      String.mk (ds.toList.take (e + 1).toNat) ++ "." ++ String.mk (ds.toList.drop (e + 1).toNat)
    else "0." ++ zeros (-e - 1) ++ ds
  else
    let m := if p = 1 then ds
             else String.mk (ds.toList.take 1) ++ "." ++ String.mk (ds.toList.drop 1)
    let ea := if e < 0 then (-e).toNat else e.toNat
    let es := if ea < 10 then "0" ++ toString ea else toString ea
    m ++ "e" ++ (if e < 0 then "-" else "+") ++ es

/-- `str(f)` for a Python float: the shortest decimal that rounds back to
the same binary64 value, formatted as CPython does. (For a rational that
is not a binary64 value — unreachable from real float data — the
17-digit rendering is emitted without the round-trip check.) -/
def pyFloatRepr (q : ℚ) : String :=
  if q = 0 then "0.0"
  else
    let sign := if q < 0 then "-" else ""
    let x := |q|
    let e10 := floorLog10 x
    let pr : Nat × Nat × Int :=
      match (List.range 17).findSome? (fun i =>
        (reprTry x (i + 1) e10).map (fun r => (r.1, i + 1, r.2))) with
      | some r => r
      | none =>
          let n0 := roundHalfEvenQ (x / pow10 (e10 - 16))
          if n0 = ((10 ^ 17 : Nat) : Int) then (10 ^ 16, 17, e10 + 1) else (n0.toNat, 17, e10)
    sign ++ fmtFloat (toString pr.1) pr.2.1 pr.2.2

/-- Python `str(v)`. -/
def pyStr : PyVal → String
  | .pstr s => s
  | .pint n => toString n
  | .pfloat q => pyFloatRepr q
  | .pbool b => if b then "True" else "False"
  | .pnone => "None"

/-- Python `bool(v)` for the values the engine handles. -/
def pyTruthy : PyVal → Bool
  | .pstr s => !s.isEmpty
  | .pint n => n != 0
  | .pfloat q => q != 0
  | .pbool b => b
  | .pnone => false

/-- A value as a Python number, tagging intness (`bool` counts as `int`);
`none` when the value does not take part in arithmetic. -/
def toNum? : PyVal → Option (Bool × ℚ)
  | .pint n => some (true, (n : ℚ))
  | .pbool b => some (true, if b then 1 else 0)
  | .pfloat q => some (false, q)
  | _ => none

/-- Python `a + b` on numbers, as used by `sum(...)`; `none` models the
`TypeError` raised on a non-numeric operand. -/
def pyAdd? (a b : PyVal) : Option PyVal :=
  match toNum? a, toNum? b with
  | some (ia, qa), some (ib, qb) =>
      if ia && ib then some (.pint (qa + qb).num) else some (.pfloat (qa + qb))
  | _, _ => none

/-- Parse an unsigned decimal literal `digits [. digits]`, `digits.`, or
`.digits` (the forms `float(...)` and the expression lexer accept). -/
def parseUnsignedDec? (l : List Char) : Option ℚ :=
  let ip := l.takeWhile Char.isDigit
  let rest := l.dropWhile Char.isDigit
  match rest with
  | [] => if ip.isEmpty then none else some ((digitsToNat ip : Nat) : ℚ)
  | c :: rest2 =>
    if c = '.' then
      let fp := rest2.takeWhile Char.isDigit
      let rest3 := rest2.dropWhile Char.isDigit
      if rest3.isEmpty && !(ip.isEmpty && fp.isEmpty) then
        some (((digitsToNat ip : Nat) : ℚ) + ((digitsToNat fp : Nat) : ℚ) / ((10 : ℚ) ^ fp.length))
      else none
    else none

/-- Python `float(s)` on a decimal string: optional surrounding spaces,
optional sign, then a decimal literal (exponent forms are outside the
modelled fragment). `none` models `ValueError`. -/
def parsePyFloat? (s : String) : Option ℚ :=
  let l := (s.toList.dropWhile Char.isWhitespace).reverse.dropWhile Char.isWhitespace |>.reverse
  match l with
  | '-' :: rest => (parseUnsignedDec? rest).map (fun q => -q)
  | '+' :: rest => parseUnsignedDec? rest
  | _ => parseUnsignedDec? l

/-- Python `float(v)`; `none` models the `ValueError`/`TypeError` raised
on a non-numeric value. -/
def pyFloat? : PyVal → Option ℚ
  | .pint n => some (n : ℚ)
  | .pfloat q => some q
  | .pbool b => some (if b then 1 else 0)
  | .pstr s => parsePyFloat? s
  | .pnone => none

/-- Truncation of a rational toward zero, as Python `int(float)`. -/
def ratTrunc (q : ℚ) : Int := Int.tdiv q.num (q.den : Int)

/-- Python `int(s)` on a decimal string: optional spaces, sign, digits. -/
def parsePyInt? (s : String) : Option Int :=
  let l := (s.toList.dropWhile Char.isWhitespace).reverse.dropWhile Char.isWhitespace |>.reverse
  let core : List Char → Option Int := fun ds =>
    if ds.isEmpty || !(ds.all Char.isDigit) then none
    else some ((digitsToNat ds : Nat) : Int)
  match l with
  | '-' :: rest => (core rest).map Neg.neg
  | '+' :: rest => core rest
  | _ => core l

/-- Python `int(v)`; floats truncate toward zero, bools map to 0/1,
strings must be integer literals. `none` models the raised error. -/
def pyInt? : PyVal → Option Int
  | .pint n => some n
  | .pfloat q => some (ratTrunc q)
  | .pbool b => some (if b then 1 else 0)
  | .pstr s => parsePyInt? s
  | .pnone => none

/-! ### The safe expression interpreter (`eval_safe_expression`)

`eval(expr)` restricted to the whitelisted charset is modelled by an
explicit lexer and recursive-descent parser/evaluator for Python's
arithmetic/comparison fragment. `none` models a `SyntaxError`,
`ZeroDivisionError`, or any other exception the `except` swallows. -/

/-- Tokens over the whitelisted character set: integer literals, float
literals (already rounded to binary64, as CPython's tokenizer does), the
Ellipsis literal `...`, and the operator/punctuation tokens. -/
inductive Tok where
  | numI (n : Int)
  | numF (v : FV)
  | ellip
  | lpar | rpar
  | plus | minus | times | divide | fdiv | power
  | ltTok | gtTok | leTok | geTok | eqTok | neTok
deriving DecidableEq, Repr

/-- Lex one numeric literal (Python rejects a multi-digit integer with a
leading nonzero digit after zeros; floats may have leading zeros and a bare
`1.` or `.5`; a float literal is rounded to binary64, overflowing to
infinity, as CPython's correctly-rounded literal parsing does). -/
def lexNum? (l : List Char) : Option (Tok × List Char) :=
  let ip := l.takeWhile Char.isDigit
  let rest := l.dropWhile Char.isDigit
  match rest with
  | '.' :: rest2 =>
      let fp := rest2.takeWhile Char.isDigit
      let rest3 := rest2.dropWhile Char.isDigit
      if ip.isEmpty && fp.isEmpty then none
      else some (.numF (roundQ (((digitsToNat ip : Nat) : ℚ)
                 + ((digitsToNat fp : Nat) : ℚ) / ((10 : ℚ) ^ fp.length))), rest3)
  | _ =>
      if ip.isEmpty then none
      else if ip.length > 1 && ip.head? == some '0' && ip.any (fun c => c ≠ '0') then none
      else some (.numI ((digitsToNat ip : Nat) : Int), rest)

/-- Tokenize an expression; `none` is a lexical error (`!` or `=` not part of
`!=`/`==`, a malformed number, one or two dots not forming `...`, any
impossible character). -/
def lexToks : Nat → List Char → Option (List Tok)
  | 0, _ => none
  | _ + 1, [] => some []
  | fuel + 1, c :: cs =>
    if c = ' ' then lexToks fuel cs
    else if c = '.' && cs.head? == some '.' then
      match cs with
      | '.' :: '.' :: rest => (lexToks fuel rest).map (fun ts => Tok.ellip :: ts)
      | _ => none
    else if c.isDigit || c = '.' then
      match lexNum? (c :: cs) with
      | none => none
      | some (t, rest) => (lexToks fuel rest).map (fun ts => t :: ts)
    else
      match c, cs with
      | '*', '*' :: rest => (lexToks fuel rest).map (fun ts => Tok.power :: ts)
      | '*', _ => (lexToks fuel cs).map (fun ts => Tok.times :: ts)
      | '/', '/' :: rest => (lexToks fuel rest).map (fun ts => Tok.fdiv :: ts)
      | '/', _ => (lexToks fuel cs).map (fun ts => Tok.divide :: ts)
      | '<', '=' :: rest => (lexToks fuel rest).map (fun ts => Tok.leTok :: ts)
      | '<', _ => (lexToks fuel cs).map (fun ts => Tok.ltTok :: ts)
      | '>', '=' :: rest => (lexToks fuel rest).map (fun ts => Tok.geTok :: ts)
      | '>', _ => (lexToks fuel cs).map (fun ts => Tok.gtTok :: ts)
      | '=', '=' :: rest => (lexToks fuel rest).map (fun ts => Tok.eqTok :: ts)
      | '!', '=' :: rest => (lexToks fuel rest).map (fun ts => Tok.neTok :: ts)
      | '+', _ => (lexToks fuel cs).map (fun ts => Tok.plus :: ts)
      | '-', _ => (lexToks fuel cs).map (fun ts => Tok.minus :: ts)
      | '(', _ => (lexToks fuel cs).map (fun ts => Tok.lpar :: ts)
      | ')', _ => (lexToks fuel cs).map (fun ts => Tok.rpar :: ts)
      | _, _ => none

/-- An evaluated Python expression over the whitelisted charset: an `int`, a
`float`, a `bool`, the `Ellipsis` object, the empty tuple, or a complex
number (from a negative base under a fractional power; only its truthiness,
always true, is represented). The `ex` flag certifies that the value is
bit-exact: every `float` on which it is set is exactly the binary64 value
CPython computes. It is cleared only on results obtained through the
high-precision approximation of non-integer powers. -/
inductive EV where
  | intv (ex : Bool) (n : Int)
  | fltv (ex : Bool) (v : FV)
  | bl (ex : Bool) (b : Bool)
  | ell
  | tup0
  | cpx
deriving DecidableEq, Repr

/-- Python `bool(...)` of an evaluated expression (`bool(nan)` and
`bool(inf)` are true; a nonreal complex value is nonzero, hence true). -/
def evTruthy : EV → Bool
  | .intv _ n => n != 0
  | .fltv _ (.fin q) => q != 0
  | .fltv _ _ => true
  | .bl _ b => b
  | .ell => true
  | .tup0 => false
  | .cpx => true

/-- A numeric operand: an exact `int` or a `float`. -/
inductive NumV where
  | iv (n : Int)
  | fv (v : FV)
deriving DecidableEq, Repr

/-- View an `EV` as a number with its exactness (`bool` coerces to 0/1);
`none` for the non-numeric values. -/
def evNum? : EV → Option (Bool × NumV)
  | .intv ex n => some (ex, .iv n)
  | .fltv ex v => some (ex, .fv v)
  | .bl ex b => some (ex, .iv (if b then 1 else 0))
  | _ => none

/-- `float(n)` on an int: `none` models the `OverflowError` CPython raises
when the integer exceeds the largest finite binary64. -/
def intToFV? (n : Int) : Option ℚ :=
  match roundQ ((n : Int) : ℚ) with
  | .fin v => some v
  | _ => none

/-- Coerce a numeric operand to a `float` (`none` = `OverflowError`). -/
def numToFV? : NumV → Option FV
  | .iv n => (intToFV? n).map .fin
  | .fv v => some v

/-- IEEE binary64 addition (silent overflow to infinity). -/
def fvAdd : FV → FV → FV
  | .nan, _ => .nan
  | _, .nan => .nan
  | .inf, .ninf => .nan
  | .ninf, .inf => .nan
  | .inf, _ => .inf
  | _, .inf => .inf
  | .ninf, _ => .ninf
  | _, .ninf => .ninf
  | .fin a, .fin b => roundQ (a + b)

/-- Negation of a binary64 value (exact). -/
def fvNeg : FV → FV
  | .fin a => .fin (-a)
  | .inf => .ninf
  | .ninf => .inf
  | .nan => .nan

/-- IEEE binary64 multiplication (silent overflow to infinity). -/
def fvMul : FV → FV → FV
  | .nan, _ => .nan
  | _, .nan => .nan
  | .fin a, .inf => if a = 0 then .nan else if 0 < a then .inf else .ninf
  | .fin a, .ninf => if a = 0 then .nan else if 0 < a then .ninf else .inf
  | .inf, .fin b => if b = 0 then .nan else if 0 < b then .inf else .ninf
  | .ninf, .fin b => if b = 0 then .nan else if 0 < b then .ninf else .inf
  | .inf, .inf => .inf
  | .inf, .ninf => .ninf
  | .ninf, .inf => .ninf
  | .ninf, .ninf => .inf
  | .fin a, .fin b => roundQ (a * b)

/-- Python float true division: `none` models `ZeroDivisionError` on a zero
divisor; otherwise IEEE division (silent overflow to infinity). -/
def fvDivE : FV → FV → Option FV
  | _, .fin 0 => none
  | .nan, _ => some .nan
  | _, .nan => some .nan
  | .inf, .inf => some .nan
  | .inf, .ninf => some .nan
  | .ninf, .inf => some .nan
  | .ninf, .ninf => some .nan
  | .inf, .fin b => some (if 0 < b then .inf else .ninf)
  | .ninf, .fin b => some (if 0 < b then .ninf else .inf)
  | .fin _, .inf => some (.fin 0)
  | .fin _, .ninf => some (.fin 0)
  | .fin a, .fin b => some (roundQ (a / b))

/-- Python float floored division `a // b`: `none` models
`ZeroDivisionError`; `inf // x` is `nan`; `a // ±inf` is `0.0` when the
signs agree and `-1.0` otherwise (as CPython's `float_floor_div` computes);
otherwise the floor of the exact quotient, rounded to binary64. -/
def fvFloorDivE : FV → FV → Option FV
  | _, .fin 0 => none
  | .nan, _ => some .nan
  | _, .nan => some .nan
  | .inf, _ => some .nan
  | .ninf, _ => some .nan
  | .fin a, .inf => some (if 0 ≤ a then .fin 0 else .fin (-1))
  | .fin a, .ninf => some (if a ≤ 0 then .fin 0 else .fin (-1))
  | .fin a, .fin b => some (roundQ ((Int.fdiv (a / b).num ((a / b).den : Int) : Int) : ℚ))

/-! #### High-precision approximation of non-integer powers

CPython computes `x ** y` for floats through the platform `pow`, which on
every supported platform is correctly rounded (glibc). For a non-integer
exponent the exact value is irrational, so the model computes it by a
128-bit fixed-point `exp`/`ln` whose error is far below one binary64 ulp;
the result carries `ex := false` because the model does not certify the
correct rounding of the final bit. -/

/-- `⌊ln 2 · 2¹²⁸⌋`. -/
def ln2Fx : Int := 235865763225513294137944142764154484399

/-- Fixed-point (`2⁻¹²⁸` ulp) natural logarithm of a positive rational,
via range reduction to `[1, 2)` and the `atanh` series. -/
def lnFx (q : ℚ) : Int :=
  let e := floorLog2 q
  let m : ℚ := q / pow2 e
  let zq : ℚ := (m - 1) / (m + 1)
  let z : Int := Int.fdiv (zq.num * (2 ^ 128 : Nat)) (zq.den : Int)
  let z2 : Int := z * z / (2 ^ 128 : Nat)
  let s := ((List.range 60).foldl
    (fun st k => (st.1 + st.2 / (2 * (k : Int) + 1), st.2 * z2 / (2 ^ 128 : Nat)))
    ((0 : Int), z)).1
  2 * s + e * ln2Fx

/-- Fixed-point exponential: `exp (t / 2¹²⁸)` as a rational, via range
reduction modulo `ln 2` and the Taylor series. -/
def expFx (t : Int) : ℚ :=
  let n : Int := Int.fdiv (2 * t + ln2Fx) (2 * ln2Fx)
  let r : Int := t - n * ln2Fx
  let s := ((List.range 40).foldl
    (fun st k => let t2 := st.2 * r / ((2 ^ 128 : Nat) * ((k : Int) + 1)); (st.1 + t2, t2))
    (((2 ^ 128 : Nat) : Int), ((2 ^ 128 : Nat) : Int))).1
  ((s : ℚ) / ((2 ^ 128 : Nat) : ℚ)) * pow2 n

/-- `a ** b` for a positive finite base and a finite non-integer (or very
large integer) exponent: `none` models the `OverflowError` CPython raises
when the result overflows; results below the subnormal range underflow to
`0.0` silently. -/
def fvPowApprox? (a b : ℚ) : Option FV :=
  let t : Int := Int.fdiv (b.num * lnFx a) (b.den : Int)
  if (1200 : Int) * (2 ^ 128 : Nat) < t then none
  else if t < (-1200 : Int) * (2 ^ 128 : Nat) then some (.fin 0)
  else
    match roundQ (expFx t) with
    | .fin v => some (.fin v)
    | _ => none

/-- Is the float integer-valued, and what integer? -/
def fvInt? : FV → Option Int
  | .fin q => if q.den = 1 then some q.num else none
  | _ => none

/-- `v ** w` on floats, following CPython `float_pow`: the IEEE special
cases for zeros, infinities and NaN; `ZeroDivisionError` (`none` wrapping
distinguished below) for `0.0` to a negative power; a complex result for a
negative base and non-integer exponent; exact computation (then rounding)
for small integer exponents; the high-precision approximation otherwise.
Overflow raises `OverflowError` (`none`), unlike multiplication. -/
def fvPowE : FV → FV → Option EV
  | v, w =>
    if w = .fin 0 then some (.fltv true (.fin 1))
    else if v = .fin 1 then some (.fltv true (.fin 1))
    else match v, w with
    | .nan, _ => some (.fltv true .nan)
    | _, .nan => some (.fltv true .nan)
    | v, .inf =>
        some (.fltv true (match v with
          | .fin a => if a = -1 then .fin 1 else if -1 < a ∧ a < 1 then .fin 0 else .inf
          | _ => .inf))
    | v, .ninf =>
        some (.fltv true (match v with
          | .fin a => if a = -1 then .fin 1 else if -1 < a ∧ a < 1 then .inf else .fin 0
          | _ => .fin 0))
    | .inf, .fin b => some (.fltv true (if 0 < b then .inf else .fin 0))
    | .ninf, .fin b =>
        some (.fltv true
          (if 0 < b then (if b.den = 1 ∧ b.num % 2 ≠ 0 then .ninf else .inf) else .fin 0))
    | .fin a, .fin b =>
        if a = 0 then (if 0 < b then some (.fltv true (.fin 0)) else none)
        else if a < 0 then
          match fvInt? (.fin b) with
          | none => some .cpx
          | some n =>
              let sgn : ℚ := if n % 2 = 0 then 1 else -1
              if n.natAbs ≤ 64 then
                match roundQ (sgn * |a| ^ n) with
                | .fin u => some (.fltv true (.fin u))
                | _ => none
              else
                match fvPowApprox? |a| b with
                | some (.fin u) => some (.fltv false (.fin (sgn * u)))
                | _ => none
        else
          match fvInt? (.fin b) with
          | some n =>
              if n.natAbs ≤ 64 then
                match roundQ (a ^ n) with
                | .fin u => some (.fltv true (.fin u))
                | _ => none
              else (fvPowApprox? a b).map (fun u => .fltv false u)
          | none => (fvPowApprox? a b).map (fun u => .fltv false u)

/-- Python `a + b` over the evaluator's values: empty tuples concatenate,
ints add exactly, any float operand forces IEEE float addition (converting
the int side, which can raise `OverflowError`); everything else is a
`TypeError` (`none`). -/
def evAdd? : EV → EV → Option EV
  | .tup0, .tup0 => some .tup0
  | a, b =>
      match evNum? a, evNum? b with
      | some (xa, .iv m), some (xb, .iv n) => some (.intv (xa && xb) (m + n))
      | some (xa, va), some (xb, vb) => do
          let fa ← numToFV? va
          let fb ← numToFV? vb
          pure (.fltv (xa && xb) (fvAdd fa fb))
      | _, _ => none

/-- Python `a - b` (no tuple case). -/
def evSub? : EV → EV → Option EV
  | a, b =>
      match evNum? a, evNum? b with
      | some (xa, .iv m), some (xb, .iv n) => some (.intv (xa && xb) (m - n))
      | some (xa, va), some (xb, vb) => do
          let fa ← numToFV? va
          let fb ← numToFV? vb
          pure (.fltv (xa && xb) (fvAdd fa (fvNeg fb)))
      | _, _ => none

/-- Python `a * b`: an empty tuple repeated by an int (or bool) is the
empty tuple; ints multiply exactly; float operands use IEEE
multiplication. -/
def evMul? : EV → EV → Option EV
  | .tup0, b =>
      (match b with
       | .intv _ _ => some .tup0
       | .bl _ _ => some .tup0
       | _ => none)
  | a, .tup0 =>
      (match a with
       | .intv _ _ => some .tup0
       | .bl _ _ => some .tup0
       | _ => none)
  | a, b =>
      match evNum? a, evNum? b with
      | some (xa, .iv m), some (xb, .iv n) => some (.intv (xa && xb) (m * n))
      | some (xa, va), some (xb, vb) => do
          let fa ← numToFV? va
          let fb ← numToFV? vb
          pure (.fltv (xa && xb) (fvMul fa fb))
      | _, _ => none

/-- Python `a / b` (true division): `int / int` is correctly-rounded
binary64 division of the exact values, raising `OverflowError` on an
overflowing quotient (unlike float division, which overflows silently);
a zero divisor is `ZeroDivisionError`. -/
def evDiv? : EV → EV → Option EV
  | a, b =>
      match evNum? a, evNum? b with
      | some (xa, .iv m), some (xb, .iv n) =>
          if n = 0 then none
          else
            match roundQ ((m : ℚ) / (n : ℚ)) with
            | .fin v => some (.fltv (xa && xb) (.fin v))
            | _ => none
      | some (xa, va), some (xb, vb) => do
          let fa ← numToFV? va
          let fb ← numToFV? vb
          let r ← fvDivE fa fb
          pure (.fltv (xa && xb) r)
      | _, _ => none

/-- Python `a // b`: exact floored division on ints, float floored
division otherwise. -/
def evFdiv? : EV → EV → Option EV
  | a, b =>
      match evNum? a, evNum? b with
      | some (xa, .iv m), some (xb, .iv n) =>
          if n = 0 then none else some (.intv (xa && xb) (Int.fdiv m n))
      | some (xa, va), some (xb, vb) => do
          let fa ← numToFV? va
          let fb ← numToFV? vb
          let r ← fvFloorDivE fa fb
          pure (.fltv (xa && xb) r)
      | _, _ => none

/-- Python `a ** b`: `int ** nonnegative int` is exact; `int ** negative
int` moves to floats (the base conversion can raise `OverflowError`, and a
zero base raises `ZeroDivisionError`); float powers go through
`fvPowE`. -/
def evPow? : EV → EV → Option EV
  | a, b =>
      match evNum? a, evNum? b with
      | some (xa, .iv m), some (xb, .iv n) =>
          if 0 ≤ n then some (.intv (xa && xb) (m ^ n.toNat))
          else if m = 0 then none
          else do
            let fa ← intToFV? m
            let fb ← intToFV? n
            match fvPowE (.fin fa) (.fin fb) with
            | some (.fltv ex v) => pure (.fltv (xa && xb && ex) v)
            | r => r
      | some (xa, va), some (xb, vb) => do
          let fa ← numToFV? va
          let fb ← numToFV? vb
          match fvPowE fa fb with
          | some (.fltv ex v) => pure (.fltv (xa && xb && ex) v)
          | r => r
      | _, _ => none

/-- Python unary `-a`. -/
def evNeg? : EV → Option EV
  | .intv ex n => some (.intv ex (-n))
  | .fltv ex v => some (.fltv ex (fvNeg v))
  | .bl ex b => some (.intv ex (if b then -1 else 0))
  | _ => none

/-- Python unary `+a` (a complex value stays complex). -/
def evPos? : EV → Option EV
  | .intv ex n => some (.intv ex n)
  | .fltv ex v => some (.fltv ex v)
  | .bl ex b => some (.intv ex (if b then 1 else 0))
  | .cpx => some .cpx
  | _ => none

/-- The six comparison operators. -/
inductive CmpOp where
  | lt | gt | le | ge | eq | ne
deriving DecidableEq, Repr

/-- The comparison denoted by a token, if it is a comparison token. -/
def cmpOp? : Tok → Option CmpOp
  | .ltTok => some .lt
  | .gtTok => some .gt
  | .leTok => some .le
  | .geTok => some .ge
  | .eqTok => some .eq
  | .neTok => some .ne
  | _ => none

/-- Compare two numeric operands; NaN compares false under everything but
`!=` (int/float comparisons are exact in Python, with no conversion). -/
def numCmp (op : CmpOp) (x y : NumV) : Bool :=
  match x, y with
  | .fv .nan, _ => op == .ne
  | _, .fv .nan => op == .ne
  | x, y =>
      let qv : NumV → Option ℚ := fun v =>
        match v with
        | .iv n => some ((n : Int) : ℚ)
        | .fv (.fin q) => some q
        | _ => none
      let ord : Ordering :=
        match x, y with
        | .fv .inf, .fv .inf => .eq
        | .fv .ninf, .fv .ninf => .eq
        | .fv .inf, _ => .gt
        | _, .fv .inf => .lt
        | .fv .ninf, _ => .lt
        | _, .fv .ninf => .gt
        | x, y =>
            match qv x, qv y with
            | some a, some b => compare a b
            | _, _ => Ordering.eq
      match op with
      | .lt => ord == .lt
      | .gt => ord == .gt
      | .le => ord != .gt
      | .ge => ord != .lt
      | .eq => ord == .eq
      | .ne => ord != .eq

/-- Is the operator an ordering (not `==`/`!=`)? -/
def cmpIsOrder : CmpOp → Bool
  | .eq => false
  | .ne => false
  | _ => true

/-- Python `a op b` for one comparison link: numbers compare exactly
(NaN-aware); `Ellipsis` and the empty tuple are equality-comparable with
everything (equal only to themselves) but unordered against other types
(`TypeError`, `none`); a complex value is equal to no real; the result
carries the conjunction of the operands' exactness. -/
def evCmp? (op : CmpOp) (a b : EV) : Option (Bool × Bool) :=
  match a, b with
  | .ell, .ell =>
      if cmpIsOrder op then none else some (true, op == .eq)
  | .tup0, .tup0 =>
      some (true, match op with
        | .lt => false | .gt => false | .le => true | .ge => true
        | .eq => true | .ne => false)
  | .cpx, .cpx => none
  | .cpx, _ => if cmpIsOrder op then none else some (true, op == .ne)
  | _, .cpx => if cmpIsOrder op then none else some (true, op == .ne)
  | .ell, _ => if cmpIsOrder op then none else some (true, op == .ne)
  | _, .ell => if cmpIsOrder op then none else some (true, op == .ne)
  | .tup0, _ => if cmpIsOrder op then none else some (true, op == .ne)
  | _, .tup0 => if cmpIsOrder op then none else some (true, op == .ne)
  | a, b =>
      match evNum? a, evNum? b with
      | some (xa, va), some (xb, vb) => some (xa && xb, numCmp op va vb)
      | _, _ => none

mutual

/-- `comparison := sum (cmpop sum)*`, with Python's chained-comparison
semantics (`a < b < c` is `a < b and b < c`). The model evaluates every
link eagerly where Python short-circuits; since a failed link raises (and
`eval_safe_expression` turns both a raised error and a false chain into
`False`), the two give the same observable outcome. -/
def pCmp : Nat → List Tok → Option (EV × List Tok)
  | 0, _ => none
  | f + 1, ts => do
      let (v, ts1) ← pSum f ts
      pCmpChain f v true true false ts1

/-- Remaining links of a comparison chain: previous operand, accumulated
truth and exactness, whether any comparison operator was seen yet. -/
def pCmpChain : Nat → EV → Bool → Bool → Bool → List Tok → Option (EV × List Tok)
  | 0, _, _, _, _, _ => none
  | f + 1, prev, acc, accEx, sawOp, ts =>
    match ts with
    | t :: ts1 =>
      match cmpOp? t with
      | some op => do
          let (w, ts2) ← pSum f ts1
          let (ex, b) ← evCmp? op prev w
          pCmpChain f w (acc && b) (accEx && ex) true ts2
      | none => some (if sawOp then .bl accEx acc else prev, ts)
    | [] => some (if sawOp then .bl accEx acc else prev, ts)

/-- `sum := term ((+|-) term)*`. -/
def pSum : Nat → List Tok → Option (EV × List Tok)
  | 0, _ => none
  | f + 1, ts => do
      let (v, ts1) ← pTerm f ts
      pSumRest f v ts1

def pSumRest : Nat → EV → List Tok → Option (EV × List Tok)
  | 0, _, _ => none
  | f + 1, v, .plus :: ts => do
      let (w, ts1) ← pTerm f ts
      let r ← evAdd? v w
      pSumRest f r ts1
  | f + 1, v, .minus :: ts => do
      let (w, ts1) ← pTerm f ts
      let r ← evSub? v w
      pSumRest f r ts1
  | _ + 1, v, ts => some (v, ts)

/-- `term := factor ((*|/|//) factor)*`. -/
def pTerm : Nat → List Tok → Option (EV × List Tok)
  | 0, _ => none
  | f + 1, ts => do
      let (v, ts1) ← pFactor f ts
      pTermRest f v ts1

def pTermRest : Nat → EV → List Tok → Option (EV × List Tok)
  | 0, _, _ => none
  | f + 1, v, .times :: ts => do
      let (w, ts1) ← pFactor f ts
      let r ← evMul? v w
      pTermRest f r ts1
  | f + 1, v, .divide :: ts => do
      let (w, ts1) ← pFactor f ts
      let r ← evDiv? v w
      pTermRest f r ts1
  | f + 1, v, .fdiv :: ts => do
      let (w, ts1) ← pFactor f ts
      let r ← evFdiv? v w
      pTermRest f r ts1
  | _ + 1, v, ts => some (v, ts)

/-- `factor := (+|-) factor | power`. -/
def pFactor : Nat → List Tok → Option (EV × List Tok)
  | 0, _ => none
  | f + 1, .plus :: ts => do
      let (v, ts1) ← pFactor f ts
      let r ← evPos? v
      pure (r, ts1)
  | f + 1, .minus :: ts => do
      let (v, ts1) ← pFactor f ts
      let r ← evNeg? v
      pure (r, ts1)
  | f + 1, ts => pPow f ts

/-- `power := atom [** factor]` (right associative, and the exponent side
binds tighter than a unary sign: `-2**2 == -4`, `2**-2 == 0.25`). -/
def pPow : Nat → List Tok → Option (EV × List Tok)
  | 0, _ => none
  | f + 1, ts => do
      let (v, ts1) ← pAtom f ts
      match ts1 with
      | .power :: ts2 => do
          let (w, ts3) ← pFactor f ts2
          let r ← evPow? v w
          pure (r, ts3)
      | _ => pure (v, ts1)

/-- `atom := NUMBER | ... | ( ) | ( comparison )`. -/
def pAtom : Nat → List Tok → Option (EV × List Tok)
  | 0, _ => none
  | _ + 1, .numI n :: ts => some (.intv true n, ts)
  | _ + 1, .numF v :: ts => some (.fltv true v, ts)
  | _ + 1, .ellip :: ts => some (.ell, ts)
  | _ + 1, .lpar :: .rpar :: ts => some (.tup0, ts)
  | f + 1, .lpar :: ts => do
      let (v, ts1) ← pCmp f ts
      match ts1 with
      | .rpar :: ts2 => pure (v, ts2)
      | _ => none
  | _ + 1, _ => none

end

/-- Parse and evaluate a whole expression; leftover tokens are a syntax
error. The fuel bounds recursion depth and is ample for any token list. -/
def pyEvalArith? (s : String) : Option EV := do
  let ts ← lexToks (s.length + 1) s.toList
  let (v, rest) ← pCmp (8 * ts.length + 8) ts
  if rest.isEmpty then pure v else none

/-- The whitelist of `eval_safe_expression` (source line 331). -/
def allowedChars : List Char := "0123456789.+-*/()><=! ".toList

/-- The dangerous substrings checked on the lower-cased expression
(source line 336). -/
def dangerousPatterns : List String := ["__", "import", "exec", "eval", "compile", "open"]

/-- `eval_safe_expression(expr)` (source lines 303-328): charset
whitelist, dangerous-pattern check, then `bool(eval(expr))` with every
exception turned into `False`. -/
def eval_safe_expression (expr : String) : Bool :=
  if !(expr.toList.all (fun c => allowedChars.contains c)) then false
  else if dangerousPatterns.any (fun p => strContainsSub (strLower expr) p) then false
  else
    match pyEvalArith? expr with
    | none => false
    | some v => evTruthy v

/-! ### Regular expressions (`re.compile` / `pattern.search`) -/

/-- A shorthand class: `\w`, `\d` or `\s`. -/
inductive WCls where
  | wd | dig | sp
deriving DecidableEq, Repr

/-- One member of a character class: a single character, a range, or an
embedded (possibly negated) shorthand class. -/
inductive ClsItem where
  | one (c : Char)
  | rng (lo hi : Char)
  | dcls (neg : Bool) (w : WCls)
deriving DecidableEq, Repr

/-- A set of scoped inline flags (`i`, `m`, `s`, `a`; the parse-only `x`
is handled during parsing). -/
structure FSet where
  i : Bool := false
  m : Bool := false
  s : Bool := false
  a : Bool := false
deriving DecidableEq, Repr

/-- Regex abstract syntax, covering the constructs `re.compile` accepts:
literals, `.`, classes, concatenation, alternation, counted repetition
(`* + ? {m,n}` with lazy variants), atomic groups and possessive
quantifiers, capture groups and backreferences, lookarounds, the anchors
`^ $ \A \Z \b \B`, and scoped inline flags. -/
inductive RE where
  | eps
  | lit (c : Char)
  | anyc
  | cls (neg : Bool) (items : List ClsItem)
  | cat (a b : RE)
  | alt (a b : RE)
  | rep (lo : Nat) (hi : Option Nat) (lz : Bool) (a : RE)
  | atomic (a : RE)
  | grp (idx : Nat) (a : RE)
  | bref (n : Nat)
  | look (behind neg : Bool) (a : RE)
  | bol | eol | wordb | nwordb | strA | strZ
  | flagged (add rem : FSet) (a : RE)
deriving DecidableEq, Repr

/-- The runtime matching flags: `IGNORECASE`, `MULTILINE`, `DOTALL`,
`ASCII`. -/
structure Flags where
  ic : Bool := false
  ml : Bool := false
  ds : Bool := false
  asc : Bool := false
deriving DecidableEq, Repr

/-- Apply a scoped flag group to the current flags (`a` can only be
switched on). -/
def applyF (fl : Flags) (add rem : FSet) : Flags :=
  { ic := (fl.ic || add.i) && !rem.i
    ml := (fl.ml || add.m) && !rem.m
    ds := (fl.ds || add.s) && !rem.s
    asc := fl.asc || add.a }

/-- Case-insensitive equivalence of a (lowered) pattern codepoint and a
(lowered) text codepoint, including sre's extra-cases table. -/
def icEqLowered (lp ld : Nat) : Bool :=
  lp == ld || (extrasOf lp).contains ld

/-- Does text character `d` match pattern literal `c` under the flags?
Under Unicode `IGNORECASE` both sides are simple-lowered and compared up
to the extra-cases table, exactly as sre compiles cased literals. -/
def charMatchF (fl : Flags) (c d : Char) : Bool :=
  if fl.ic then
    if fl.asc then asciiLower c == asciiLower d
    else icEqLowered (charLowerSimple c).toNat (charLowerSimple d).toNat
  else c == d

/-- Is some codepoint of `[lo, hi]` simple-lowered to `t`? Decided against
the compressed mapping rows without expanding the range. -/
def lowerPreimInRange (t lo hi : Nat) : Bool :=
  (lo ≤ t && t ≤ hi && (charLowerSimple (Char.ofNat t)).toNat == t)
  || lowerRows.any (fun r =>
       let c : Int := (t : Int) - r.2.2.2
       0 ≤ c && r.1 ≤ c.toNat && c.toNat ≤ r.2.1 && (c.toNat - r.1) % r.2.2.1 == 0
         && lo ≤ c.toNat && c.toNat ≤ hi)

/-- Does the (lowered) text codepoint fall in a class range under Unicode
`IGNORECASE`? The matched set is the closure sre builds: the lowerings of
every range member plus their extra-case equivalents. -/
def icRngMatch (ld lo hi : Nat) : Bool :=
  lowerPreimInRange ld lo hi
  || (extraCases.filter (fun kv => kv.2.contains ld)).any (fun kv => lowerPreimInRange kv.1 lo hi)

/-- Does character `d` satisfy a shorthand class under the flags? -/
def wclsMatch (fl : Flags) (w : WCls) (d : Char) : Bool :=
  let n := d.toNat
  match w with
  | .wd => if fl.asc then (48 ≤ n && n ≤ 57) || (65 ≤ n && n ≤ 90) || (97 ≤ n && n ≤ 122) || n == 95
           else inRanges wordRanges n
  | .dig => if fl.asc then 48 ≤ n && n ≤ 57 else inRanges digitRanges n
  | .sp => if fl.asc then n == 32 || (9 ≤ n && n ≤ 13) else inRanges spaceRanges n

/-- Does character `d` satisfy one class item under the flags? -/
def clsItemMatchF (fl : Flags) (d : Char) : ClsItem → Bool
  | .one c => charMatchF fl c d
  | .rng lo hi =>
      if fl.ic then
        if fl.asc then
          let t := asciiLower d
          (lo ≤ t && t ≤ hi)
          || (97 ≤ t.toNat && t.toNat ≤ 122 && lo.toNat ≤ t.toNat - 32 && t.toNat - 32 ≤ hi.toNat)
        else icRngMatch (charLowerSimple d).toNat lo.toNat hi.toNat
      else lo ≤ d && d ≤ hi
  | .dcls neg w => if neg then !(wclsMatch fl w d) else wclsMatch fl w d

/-- Does character `d` match a class with negation flag `neg`? -/
def clsMatchF (fl : Flags) (neg : Bool) (items : List ClsItem) (d : Char) : Bool :=
  let m := items.any (clsItemMatchF fl d)
  if neg then !m else m

/-- Is the character a word character (for `\b`/`\B`)? -/
def isWordF (fl : Flags) (c : Char) : Bool :=
  wclsMatch fl .wd c

/-- Structural size of a regex, used to bound the matcher's fuel. -/
def reSize : RE → Nat
  | .eps | .lit _ | .anyc | .cls _ _ | .bref _ => 1
  | .bol | .eol | .wordb | .nwordb | .strA | .strZ => 1
  | .cat a b => reSize a + reSize b + 1
  | .alt a b => reSize a + reSize b + 1
  | .rep _ _ _ a => reSize a + 2
  | .atomic a => reSize a + 1
  | .grp _ a => reSize a + 1
  | .look _ _ a => reSize a + 1
  | .flagged _ _ a => reSize a + 1

/-- Minimal width (in characters) a regex can match; a backreference
counts 0, as in sre's `getwidth`. -/
def reMinW : RE → Nat
  | .eps | .bref _ => 0
  | .bol | .eol | .wordb | .nwordb | .strA | .strZ => 0
  | .look _ _ _ => 0
  | .lit _ | .anyc | .cls _ _ => 1
  | .cat a b => reMinW a + reMinW b
  | .alt a b => min (reMinW a) (reMinW b)
  | .rep lo _ _ a => lo * reMinW a
  | .atomic a => reMinW a
  | .grp _ a => reMinW a
  | .flagged _ _ a => reMinW a

/-- Maximal width a regex can match (`none` = unbounded); a backreference
is unbounded, as in sre's `getwidth`. -/
def reMaxW : RE → Option Nat
  | .eps => some 0
  | .bref _ => none
  | .bol | .eol | .wordb | .nwordb | .strA | .strZ => some 0
  | .look _ _ _ => some 0
  | .lit _ | .anyc | .cls _ _ => some 1
  | .cat a b => do pure ((← reMaxW a) + (← reMaxW b))
  | .alt a b => do pure (max (← reMaxW a) (← reMaxW b))
  | .rep _ hi _ a =>
      match reMaxW a with
      | some 0 => some 0
      | some m => (match hi with | some h => some (h * m) | none => none)
      | none => (match hi with | some 0 => some 0 | _ => none)
  | .atomic a => reMaxW a
  | .grp _ a => reMaxW a
  | .flagged _ _ a => reMaxW a

/-- The matcher's state: the reversed prefix before the current position,
the suffix after it, and the capture-group values (1-based, `none` for a
group not yet matched). -/
structure MSt where
  bef : List Char
  aft : List Char
  caps : List (Option (List Char))
deriving DecidableEq, Repr

/-- Record the text a capture group consumed between an entry state and an
exit state. -/
def setCap (idx : Nat) (stIn stOut : MSt) : MSt :=
  let t := (stOut.bef.take (stOut.bef.length - stIn.bef.length)).reverse
  { stOut with caps := stOut.caps.set (idx - 1) (some t) }

/-- Consume one character. -/
def stepSt (d : Char) (rest : List Char) (st : MSt) : MSt :=
  { st with bef := d :: st.bef, aft := rest }

mutual

/-- The backtracking matcher, in continuation style: try to match `r` at
the state's position and call `k` on every viable successor state in the
engine's preference order, so that the returned result is the one sre's
backtracking finds first. The first component of fuel bounds the
recursion depth and is ample for every pattern (see `reSearch`). -/
def matchR : Nat → Flags → RE → MSt → (MSt → Option MSt) → Option MSt
  | 0, _, _, _, _ => none
  | _ + 1, _, .eps, st, k => k st
  | _ + 1, fl, .lit c, st, k =>
      match st.aft with
      | d :: rest => if charMatchF fl c d then k (stepSt d rest st) else none
      | [] => none
  | _ + 1, fl, .anyc, st, k =>
      match st.aft with
      | d :: rest => if fl.ds || d ≠ '\n' then k (stepSt d rest st) else none
      | [] => none
  | _ + 1, fl, .cls neg items, st, k =>
      match st.aft with
      | d :: rest => if clsMatchF fl neg items d then k (stepSt d rest st) else none
      | [] => none
  | f + 1, fl, .cat a b, st, k => matchR f fl a st (fun st2 => matchR f fl b st2 k)
  | f + 1, fl, .alt a b, st, k =>
      (matchR f fl a st k).orElse (fun _ => matchR f fl b st k)
  | f + 1, fl, .rep lo hi lz a, st, k => matchRep f fl lo hi lz a st k
  | f + 1, fl, .atomic a, st, k =>
      (matchR f fl a st some).bind k
  | f + 1, fl, .grp idx a, st, k =>
      matchR f fl a st (fun st2 => k (setCap idx st st2))
  | _ + 1, fl, .bref n, st, k =>
      (match st.caps.getD (n - 1) none with
       | none => none
       | some t =>
           let rec eat : List Char → MSt → Option MSt
             | [], st2 => k st2
             | c :: cs, st2 =>
                 match st2.aft with
                 | d :: rest => if charMatchF fl c d then eat cs (stepSt d rest st2) else none
                 | [] => none
           eat t st)
  | f + 1, fl, .look false neg a, st, k =>
      (match matchR f fl a st some with
       | some st2 => if neg then none else k { st with caps := st2.caps }
       | none => if neg then k st else none)
  | f + 1, fl, .look true neg a, st, k =>
      let w := reMinW a
      if st.bef.length < w then (if neg then k st else none)
      else
        let st2 : MSt :=
          { bef := st.bef.drop w, aft := (st.bef.take w).reverse ++ st.aft, caps := st.caps }
        let tgt := st.aft.length
        match matchR f fl a st2 (fun st3 => if st3.aft.length = tgt then some st3 else none) with
        | some st3 => if neg then none else k { st with caps := st3.caps }
        | none => if neg then k st else none
  | _ + 1, fl, .bol, st, k =>
      if st.bef.isEmpty || (fl.ml && st.bef.head? == some '\n') then k st else none
  | _ + 1, fl, .eol, st, k =>
      if st.aft.isEmpty || (if fl.ml then st.aft.head? == some '\n' else st.aft == ['\n'])
      then k st else none
  | _ + 1, _, .strA, st, k => if st.bef.isEmpty then k st else none
  | _ + 1, _, .strZ, st, k => if st.aft.isEmpty then k st else none
  | _ + 1, fl, .wordb, st, k =>
      let lw := (st.bef.head?.map (isWordF fl)).getD false
      let rw := (st.aft.head?.map (isWordF fl)).getD false
      if lw ≠ rw then k st else none
  | _ + 1, fl, .nwordb, st, k =>
      let lw := (st.bef.head?.map (isWordF fl)).getD false
      let rw := (st.aft.head?.map (isWordF fl)).getD false
      if lw = rw && !(st.bef.isEmpty && st.aft.isEmpty) then k st else none
  | f + 1, fl, .flagged add rem a, st, k => matchR f (applyF fl add rem) a st k

/-- Counted repetition. The required part consumes one iteration at a
time; an iteration that matches empty satisfies the whole requirement (as
sre's `MAX_UNTIL`/`MIN_UNTIL` break out of an empty loop body). In the
optional part a greedy repetition offers the longer continuation first and
a lazy one the shorter; optional iterations must consume at least one
character (an empty body ends the loop, keeping its captures). -/
def matchRep : Nat → Flags → Nat → Option Nat → Bool → RE → MSt → (MSt → Option MSt) →
    Option MSt
  | 0, _, _, _, _, _, _, _ => none
  | f + 1, fl, lo, hi, lz, a, st, k =>
      let hiP := hi.map (fun h => h - 1)
      if 0 < lo then
        matchR f fl a st (fun st2 =>
          if st2.aft.length = st.aft.length then matchRep f fl 0 hiP lz a st2 k
          else matchRep f fl (lo - 1) hiP lz a st2 k)
      else
        match hi with
        | some 0 => k st
        | _ =>
            let iter : Unit → Option MSt := fun _ =>
              matchR f fl a st (fun st2 =>
                if st2.aft.length < st.aft.length then matchRep f fl 0 hiP lz a st2 k
                else k st2)
            if lz then (k st).orElse iter else (iter ()).orElse (fun _ => k st)

end

/-- Fuel ample for any match attempt: the matcher's recursion depth is
bounded by the pattern's structural size times the remaining text length
(squared to cover nested lookarounds). -/
def reFuel (r : RE) (len : Nat) : Nat :=
  ((reSize r + 16) * (len + 16)) * ((reSize r + 16) * (len + 16))

/-- `pattern.search(text)` truthiness: try a match at every start
position, left to right, with fresh captures. -/
def reSearchAt : Nat → Flags → RE → Nat → List Char → List Char → Bool
  | 0, _, _, _, _, _ => false
  | f + 1, fl, r, gc, bef, aft =>
      match matchR (reFuel r (bef.length + aft.length)) fl r
          { bef := bef, aft := aft, caps := List.replicate gc none } some with
      | some _ => true
      | none =>
          match aft with
          | [] => false
          | d :: rest => reSearchAt f fl r gc (d :: bef) rest

/-- `pattern.search(text)` over a compiled pattern with `gc` capture
groups. -/
def reSearch (fl : Flags) (r : RE) (gc : Nat) (text : List Char) : Bool :=
  reSearchAt (text.length + 1) fl r gc [] text

/-! #### The pattern parser (`re.compile`) -/

/-- The verbose-mode whitespace characters sre skips. -/
def reWs : List Char := [' ', '\t', '\n', '\r', Char.ofNat 11, Char.ofNat 12]

/-- Skip, between tokens: `(?#...)` comments always (an unterminated one
is an error, `none`), and in verbose mode whitespace and `#`-to-newline
comments. -/
def skipJunk : Nat → Bool → List Char → Option (List Char)
  | 0, _, _ => none
  | f + 1, vb, cs =>
      match cs with
      | '(' :: '?' :: '#' :: rest =>
          let rest2 := rest.dropWhile (fun c => c ≠ ')')
          (match rest2 with
           | ')' :: rest3 => skipJunk f vb rest3
           | _ => none)
      | c :: rest =>
          if vb && reWs.contains c then skipJunk f vb rest
          else if vb && c = '#' then skipJunk f vb (rest.dropWhile (fun d => d ≠ '\n'))
          else some cs
      | [] => some []

/-- Result of reading a `{...}` after an atom: not a quantifier (a literal
brace), a hard error (min over max, or a bound at/over 4294967295), or a
counted quantifier. -/
inductive BraceRes where
  | noQ
  | bad
  | ok (lo : Nat) (hi : Option Nat) (rest : List Char)
deriving Repr

/-- Read a counted quantifier after its `{`. -/
def parseBrace (cs : List Char) : BraceRes :=
  let lod := cs.takeWhile Char.isDigit
  let cs1 := cs.dropWhile Char.isDigit
  match cs1 with
  | '}' :: rest =>
      if lod.isEmpty then .noQ
      else
        let lo := digitsToNat lod
        if 4294967295 ≤ lo then .bad else .ok lo (some lo) rest
  | ',' :: cs2 =>
      let hid := cs2.takeWhile Char.isDigit
      let cs3 := cs2.dropWhile Char.isDigit
      (match cs3 with
       | '}' :: rest =>
           let lo := if lod.isEmpty then 0 else digitsToNat lod
           (if hid.isEmpty then
              if 4294967295 ≤ lo then .bad else .ok lo none rest
            else
              let hi := digitsToNat hid
              if 4294967295 ≤ lo || 4294967295 ≤ hi then .bad
              else if hi < lo then .bad
              else .ok lo (some hi) rest)
       | _ => .noQ)
  | _ => .noQ

/-- The value of a hex digit. -/
def hexVal? (c : Char) : Option Nat :=
  if '0' ≤ c && c ≤ '9' then some (c.toNat - 48)
  else if 'a' ≤ c && c ≤ 'f' then some (c.toNat - 87)
  else if 'A' ≤ c && c ≤ 'F' then some (c.toNat - 55)
  else none

/-- Read exactly `k` hex digits. -/
def readHex : Nat → List Char → Nat → Option (Nat × List Char)
  | 0, cs, acc => some (acc, cs)
  | k + 1, c :: cs, acc => (hexVal? c).bind (fun v => readHex k cs (acc * 16 + v))
  | _ + 1, [], _ => none

/-- Is the character an octal digit? -/
def isOct (c : Char) : Bool := '0' ≤ c && c ≤ '7'

/-- The literal regex for a codepoint escape; a lone-surrogate escape
compiles (as in Python) but can never match a scalar-value text, so it
becomes the empty class. -/
def hexLit (n : Nat) : RE :=
  if 55296 ≤ n && n ≤ 57343 then .cls false [] else .lit (Char.ofNat n)

/-- The class item for a codepoint escape (surrogates as an impossible
range member). -/
def hexCls (n : Nat) : ClsItem :=
  if 55296 ≤ n && n ≤ 57343 then .rng (Char.ofNat 1) (Char.ofNat 0) else .one (Char.ofNat n)

/-- The control-character escapes `\n \t \r \f \v \a`. -/
def ctrlEsc? (c : Char) : Option Char :=
  match c with
  | 'n' => some '\n'
  | 't' => some '\t'
  | 'r' => some '\r'
  | 'f' => some (Char.ofNat 12)
  | 'v' => some (Char.ofNat 11)
  | 'a' => some (Char.ofNat 7)
  | _ => none

/-- An escape sequence outside a character class: shorthand classes, the
anchor escapes, control/hex/unicode/octal literals, backreferences
(validated against the `gc` groups opened so far), and literal escapes of
non-alphanumeric characters. Unknown letter escapes are `re.error`. The
`\N{...}` named escape is outside the modelled fragment and maps to
`none` (a model deviation: Python resolves the character name). -/
def escAtom? (gc : Nat) : List Char → Option (RE × List Char)
  | [] => none
  | c :: rest =>
    match c with
    | 'A' => some (.strA, rest)
    | 'Z' => some (.strZ, rest)
    | 'b' => some (.wordb, rest)
    | 'B' => some (.nwordb, rest)
    | 'd' => some (.cls false [.dcls false .dig], rest)
    | 'D' => some (.cls false [.dcls true .dig], rest)
    | 's' => some (.cls false [.dcls false .sp], rest)
    | 'S' => some (.cls false [.dcls true .sp], rest)
    | 'w' => some (.cls false [.dcls false .wd], rest)
    | 'W' => some (.cls false [.dcls true .wd], rest)
    | 'x' => (readHex 2 rest 0).map (fun p => (hexLit p.1, p.2))
    | 'u' => (readHex 4 rest 0).map (fun p => (hexLit p.1, p.2))
    | 'U' => (readHex 8 rest 0).bind (fun p =>
        if p.1 < 1114112 then some (hexLit p.1, p.2) else none)
    | '0' =>
        (match rest with
         | d1 :: d2 :: rest2 =>
             if isOct d1 && isOct d2 then
               some (.lit (Char.ofNat ((d1.toNat - 48) * 8 + (d2.toNat - 48))), rest2)
             else if isOct d1 then some (.lit (Char.ofNat (d1.toNat - 48)), d2 :: rest2)
             else some (.lit (Char.ofNat 0), rest)
         | [d1] =>
             if isOct d1 then some (.lit (Char.ofNat (d1.toNat - 48)), [])
             else some (.lit (Char.ofNat 0), rest)
         | [] => some (.lit (Char.ofNat 0), []))
    | c =>
        if c.isDigit then
          match rest with
          | d1 :: d2 :: rest2 =>
              if isOct c && isOct d1 && isOct d2 then
                let v := (c.toNat - 48) * 64 + (d1.toNat - 48) * 8 + (d2.toNat - 48)
                if v ≤ 255 then some (.lit (Char.ofNat v), rest2) else none
              else if d1.isDigit then
                let n := (c.toNat - 48) * 10 + (d1.toNat - 48)
                if n ≤ gc then some (.bref n, d2 :: rest2) else none
              else
                let n := c.toNat - 48
                if n ≤ gc then some (.bref n, d1 :: d2 :: rest2) else none
          | [d1] =>
              if d1.isDigit then
                let n := (c.toNat - 48) * 10 + (d1.toNat - 48)
                if n ≤ gc then some (.bref n, []) else none
              else
                let n := c.toNat - 48
                if n ≤ gc then some (.bref n, [d1]) else none
          | [] =>
              let n := c.toNat - 48
              if n ≤ gc then some (.bref n, []) else none
        else
          match ctrlEsc? c with
          | some ch => some (.lit ch, rest)
          | none => if c.isAlpha then none else some (.lit c, rest)

/-- An escape sequence inside a character class: shorthand classes,
`[\b]` as backspace, control/hex/unicode escapes, octal escapes (one to
three octal digits, no backreferences inside classes), and literal
escapes of non-alphanumeric characters. -/
def escCls? : List Char → Option (ClsItem × List Char)
  | [] => none
  | c :: rest =>
    match c with
    | 'd' => some (.dcls false .dig, rest)
    | 'D' => some (.dcls true .dig, rest)
    | 's' => some (.dcls false .sp, rest)
    | 'S' => some (.dcls true .sp, rest)
    | 'w' => some (.dcls false .wd, rest)
    | 'W' => some (.dcls true .wd, rest)
    | 'b' => some (.one (Char.ofNat 8), rest)
    | 'x' => (readHex 2 rest 0).map (fun p => (hexCls p.1, p.2))
    | 'u' => (readHex 4 rest 0).map (fun p => (hexCls p.1, p.2))
    | 'U' => (readHex 8 rest 0).bind (fun p =>
        if p.1 < 1114112 then some (hexCls p.1, p.2) else none)
    | c =>
        if isOct c then
          (match rest with
           | d1 :: d2 :: rest2 =>
               if isOct d1 && isOct d2 then
                 let v := (c.toNat - 48) * 64 + (d1.toNat - 48) * 8 + (d2.toNat - 48)
                 if v ≤ 255 then some (.one (Char.ofNat v), rest2) else none
               else if isOct d1 then
                 some (.one (Char.ofNat ((c.toNat - 48) * 8 + (d1.toNat - 48))), d2 :: rest2)
               else some (.one (Char.ofNat (c.toNat - 48)), d1 :: d2 :: rest2)
           | [d1] =>
               if isOct d1 then some (.one (Char.ofNat ((c.toNat - 48) * 8 + (d1.toNat - 48))), [])
               else some (.one (Char.ofNat (c.toNat - 48)), [d1])
           | [] => some (.one (Char.ofNat (c.toNat - 48)), []))
        else if c.isDigit then none
        else
          match ctrlEsc? c with
          | some ch => some (.one ch, rest)
          | none => if c.isAlpha then none else some (.one c, rest)

/-- Parse the members of a character class up to the closing `]`; running
out of input is "unterminated character set", a reversed range is "bad
character range", and a shorthand class as a range endpoint is an error
too. -/
def parseClsItems : Nat → List Char → List ClsItem → Option (List ClsItem × List Char)
  | 0, _, _ => none
  | _ + 1, [], _ => none
  | _ + 1, ']' :: rest, acc => some (acc.reverse, rest)
  | f + 1, cs, acc =>
      let unit : Option (ClsItem × List Char) :=
        match cs with
        | '\\' :: rest => escCls? rest
        | c :: rest => some (.one c, rest)
        | [] => none
      match unit with
      | none => none
      | some (it, rest1) =>
          match rest1 with
          | '-' :: ']' :: rest2 => some ((ClsItem.one '-' :: it :: acc).reverse, rest2)
          | '-' :: rest2 =>
              let unit2 : Option (ClsItem × List Char) :=
                match rest2 with
                | '\\' :: rest3 => escCls? rest3
                | c :: rest3 => some (.one c, rest3)
                | [] => none
              (match it, unit2 with
               | .one c1, some (.one c2, rest3) =>
                   if c1 ≤ c2 then parseClsItems f rest3 (.rng c1 c2 :: acc) else none
               | _, _ => none)
          | _ => parseClsItems f rest1 (it :: acc)

/-- Parse a character class after the opening `[`: optional `^`, then a
first `]` is a literal member. -/
def parseCls (fuel : Nat) (cs : List Char) : Option (RE × List Char) :=
  let (neg, cs1) : Bool × List Char :=
    match cs with
    | '^' :: rest => (true, rest)
    | _ => (false, cs)
  let (acc0, cs2) : List ClsItem × List Char :=
    match cs1 with
    | ']' :: rest => ([.one ']'], rest)
    | _ => ([], cs1)
  match parseClsItems fuel cs2 acc0.reverse with
  | some (items, rest) => some (.cls neg items, rest)
  | none => none

/-- Parser state: the number of capture groups opened so far and their
names. -/
structure PSt where
  gc : Nat
  names : List (String × Nat)
deriving Repr

/-- Is the character allowed in a group name (a Python identifier
character; non-ASCII identifier characters are admitted wholesale)? -/
def nameChar (c : Char) : Bool :=
  c.isAlphanum || c = '_' || 128 ≤ c.toNat

/-- Read a group name up to the given terminator; bad characters, an
empty name, or a leading digit are `re.error`. -/
def readName (term : Char) (cs : List Char) : Option (String × List Char) :=
  let nm := cs.takeWhile (fun c => c ≠ term)
  let rest := cs.dropWhile (fun c => c ≠ term)
  match rest with
  | t :: rest2 =>
      if t = term && !nm.isEmpty && nm.all nameChar
         && !(nm.headD '_').isDigit then
        some (String.mk nm, rest2)
      else none
  | [] => none

/-- Collect the inline-flag letters `a i L m s u x`. -/
def readFlagLetters (cs : List Char) : List Char × List Char :=
  (cs.takeWhile (fun c => "aiLmsux".toList.contains c),
   cs.dropWhile (fun c => "aiLmsux".toList.contains c))

/-- Build an `FSet` plus the verbose bit from flag letters; `none` when
the letters include `L` (unusable with a `str` pattern) or both `a` and
`u`. -/
def fsetOf? (ls : List Char) : Option (FSet × Bool) :=
  if ls.contains 'L' then none
  else if ls.contains 'a' && ls.contains 'u' then none
  else some ({ i := ls.contains 'i', m := ls.contains 'm',
               s := ls.contains 's', a := ls.contains 'a' }, ls.contains 'x')

/-- Is the atom an anchor (a zero-width assertion on which a quantifier
is "nothing to repeat")? -/
def isAnchor : RE → Bool
  | .bol | .eol | .wordb | .nwordb | .strA | .strZ => true
  | _ => false

mutual

/-- `alternation := sequence ('|' alternation)?`. -/
def reParseAlt : Nat → Bool → PSt → List Char → Option (RE × PSt × List Char)
  | 0, _, _, _ => none
  | f + 1, vb, st, cs => do
      let (r, st1, cs1) ← reParseSeq f vb st cs
      match cs1 with
      | '|' :: rest => do
          let (r2, st2, cs2) ← reParseAlt f vb st1 rest
          pure (.alt r r2, st2, cs2)
      | _ => pure (r, st1, cs1)

/-- A (possibly empty) sequence of repeated atoms, stopping at `)` or `|`
or the end of the pattern; comments (and, in verbose mode, whitespace)
between items are skipped. -/
def reParseSeq : Nat → Bool → PSt → List Char → Option (RE × PSt × List Char)
  | 0, _, _, _ => none
  | f + 1, vb, st, cs => do
      let cs0 ← skipJunk (cs.length + 1) vb cs
      match cs0 with
      | [] => some (.eps, st, [])
      | c :: _ =>
          if c = ')' || c = '|' then some (.eps, st, cs0)
          else do
            let (r, st1, cs1) ← reParseRep f vb st cs0
            let (r2, st2, cs2) ← reParseSeq f vb st1 cs1
            pure (.cat r r2, st2, cs2)

/-- An atom with an optional quantifier (`* + ?` or a counted `{...}`),
itself optionally followed by the lazy marker `?` or the possessive
marker `+` (which must follow immediately, even in verbose mode). A
quantified anchor is "nothing to repeat". -/
def reParseRep : Nat → Bool → PSt → List Char → Option (RE × PSt × List Char)
  | 0, _, _, _ => none
  | f + 1, vb, st, cs => do
      let (r, st1, cs1) ← reParseAtom f vb st cs
      let cs2 ← skipJunk (cs1.length + 1) vb cs1
      let q : Option (Option (Nat × Option Nat × List Char)) :=
        match cs2 with
        | '*' :: rest => some (some (0, none, rest))
        | '+' :: rest => some (some (1, none, rest))
        | '?' :: rest => some (some (0, some 1, rest))
        | '{' :: rest =>
            (match parseBrace rest with
             | .ok lo hi rest2 => some (some (lo, hi, rest2))
             | .bad => none
             | .noQ => some none)
        | _ => some none
      match q with
      | none => none
      | some none => pure (r, st1, cs2)
      | some (some (lo, hi, rest)) =>
          if isAnchor r then none
          else
            match rest with
            | '?' :: rest2 => pure (.rep lo hi true r, st1, rest2)
            | '+' :: rest2 => pure (.atomic (.rep lo hi false r), st1, rest2)
            | _ => pure (.rep lo hi false r, st1, rest)

/-- One atom: a group or `(?...)` extension, a class, an escape, `.`, an
anchor, or a literal character. A dangling `* + ?` (or a valid counted
quantifier) is "nothing to repeat"; an invalid `{...}` is a literal
brace. Backreferences by name resolve against the named groups;
`(?P<...>)` redefinition and unknown extensions are `re.error`. -/
def reParseAtom : Nat → Bool → PSt → List Char → Option (RE × PSt × List Char)
  | 0, _, _, _ => none
  | _ + 1, _, _, [] => none
  | f + 1, vb, st, c :: cs =>
      if c = '(' then
        match cs with
        | '?' :: ext =>
            (match ext with
             | ':' :: rest => do
                 let (r, st1, cs1) ← reParseAlt f vb st rest
                 (match cs1 with
                  | ')' :: cs2 => pure (r, st1, cs2)
                  | _ => none)
             | '=' :: rest => reParseLook f vb st rest false false
             | '!' :: rest => reParseLook f vb st rest false true
             | '<' :: '=' :: rest => reParseLook f vb st rest true false
             | '<' :: '!' :: rest => reParseLook f vb st rest true true
             | '>' :: rest => do
                 let (r, st1, cs1) ← reParseAlt f vb st rest
                 (match cs1 with
                  | ')' :: cs2 => pure (.atomic r, st1, cs2)
                  | _ => none)
             | 'P' :: '<' :: rest => do
                 let (nm, rest2) ← readName '>' rest
                 if (st.names.lookup nm).isSome then none
                 else
                   let idx := st.gc + 1
                   let st0 : PSt := { gc := idx, names := (nm, idx) :: st.names }
                   let (r, st1, cs1) ← reParseAlt f vb st0 rest2
                   (match cs1 with
                    | ')' :: cs2 => pure (.grp idx r, st1, cs2)
                    | _ => none)
             | 'P' :: '=' :: rest => do
                 let (nm, rest2) ← readName ')' rest
                 let idx ← st.names.lookup nm
                 pure (.bref idx, st, rest2)
             | _ =>
                 let (ls, rest) := readFlagLetters ext
                 do
                   let (add, addX) ← fsetOf? ls
                   (match rest with
                    | ':' :: rest2 => do
                        if ls.isEmpty then none
                        else
                        let vb2 := (vb || addX)
                        let (r, st1, cs1) ← reParseAlt f vb2 st rest2
                        (match cs1 with
                         | ')' :: cs2 => pure (.flagged add {} r, st1, cs2)
                         | _ => none)
                    | '-' :: rest2 =>
                        let (ls2, rest3) := readFlagLetters rest2
                        if ls2.isEmpty || ls2.contains 'a' || ls2.contains 'u'
                           || ls2.contains 'L' then none
                        else do
                          let (rem, remX) ← fsetOf? ls2
                          (match rest3 with
                           | ':' :: rest4 => do
                               let vb2 := (vb || addX) && !remX
                               let (r, st1, cs1) ← reParseAlt f vb2 st rest4
                               (match cs1 with
                                | ')' :: cs2 => pure (.flagged add rem r, st1, cs2)
                                | _ => none)
                           | _ => none)
                    | _ => none)
            )
        | _ => do
            let idx := st.gc + 1
            let st0 : PSt := { st with gc := idx }
            let (r, st1, cs1) ← reParseAlt f vb st0 cs
            (match cs1 with
             | ')' :: cs2 => pure (.grp idx r, st1, cs2)
             | _ => none)
      else if c = '[' then
        (parseCls (cs.length + 1) cs).map (fun p => (p.1, st, p.2))
      else if c = '\\' then
        (escAtom? st.gc cs).map (fun p => (p.1, st, p.2))
      else if c = '.' then some (.anyc, st, cs)
      else if c = '^' then some (.bol, st, cs)
      else if c = '$' then some (.eol, st, cs)
      else if c = ')' || c = '|' || c = '*' || c = '+' || c = '?' then none
      else if c = '{' then
        match parseBrace cs with
        | .noQ => some (.lit '{', st, cs)
        | _ => none
      else some (.lit c, st, cs)

/-- A lookaround group; a lookbehind must have a fixed width. -/
def reParseLook : Nat → Bool → PSt → List Char → Bool → Bool →
    Option (RE × PSt × List Char)
  | 0, _, _, _, _, _ => none
  | f + 1, vb, st, cs, behind, neg => do
      let (r, st1, cs1) ← reParseAlt f vb st cs
      match cs1 with
      | ')' :: cs2 =>
          if behind then
            (match reMaxW r with
             | some w => if w = reMinW r then pure (.look true neg r, st1, cs2) else none
             | none => none)
          else pure (.look false neg r, st1, cs2)
      | _ => none

end

/-- The global flags of a pattern: the leading `(?...)` flag groups
(verbose `x` changes parsing; `u` is the default and `L` is rejected for
`str` patterns; a flag group anywhere else in the pattern is
`re.error`). -/
structure GFlags where
  i : Bool := false
  m : Bool := false
  s : Bool := false
  a : Bool := false
  x : Bool := false
deriving DecidableEq, Repr

/-- Strip the leading global inline-flag groups. -/
def stripGlobalFlags : Nat → List Char → GFlags → Option (GFlags × List Char)
  | 0, cs, gf => some (gf, cs)
  | f + 1, cs, gf =>
      match cs with
      | '(' :: '?' :: rest =>
          let (ls, rest2) := readFlagLetters rest
          (match rest2 with
           | ')' :: rest3 =>
               if ls.isEmpty then some (gf, cs)
               else
                 (match fsetOf? ls with
                  | none => none
                  | some (s, x) =>
                      stripGlobalFlags f rest3
                        { i := gf.i || s.i, m := gf.m || s.m, s := gf.s || s.s,
                          a := gf.a || s.a, x := gf.x || x })
           | _ => some (gf, cs))
      | _ => some (gf, cs)

/-- `re.compile(pattern)`: `none` models `re.error` (and the model's
documented exclusions: conditional patterns `(?(...)...)` and `\N{...}`
named escapes, which Python accepts). Returns the parsed regex, its
capture-group count, and the pattern's global flags. -/
def pyRegexCompile (p : String) : Option (RE × Nat × GFlags) := do
  let (gf, cs) ← stripGlobalFlags (p.length + 1) p.toList {}
  let (r, st, rest) ← reParseAlt (4 * p.length + 16) gf.x { gc := 0, names := [] } cs
  if rest.isEmpty then pure (r, st.gc, gf) else none

/-- `re.search` truthiness for a compiled pattern under the call-site
`IGNORECASE` choice combined with the pattern's global flags. -/
def pySearch (ic : Bool) (cpl : RE × Nat × GFlags) (text : String) : Bool :=
  let fl : Flags :=
    { ic := ic || cpl.2.2.i, ml := cpl.2.2.m, ds := cpl.2.2.s, asc := cpl.2.2.a }
  reSearch fl cpl.1 cpl.2.1 text.toList

/-! ### Match conditions (`evaluate_match_conditions`, source lines 199-240) -/

/-- A match-conditions dict; each optional field mirrors a
`match_conditions.get(...)` access (a missing key is `none`). -/
structure MatchConditions where
  fieldName? : Option String := none
  operator? : Option String := none
  value? : Option PyVal := none
  case_sensitive? : Option Bool := none
deriving DecidableEq, Repr, Inhabited

/-- The comparison value after `str(...)` and optional lower-casing, as
the function computes it before dispatching on the operator. -/
def effMatchValue (mc : MatchConditions) : String :=
  let mv := pyStr (mc.value?.getD (.pstr ""))
  if mc.case_sensitive?.getD false then mv else strLower mv

/-- The field value `str(data.get(field, ''))` after optional
lower-casing. -/
def effFieldValue (mc : MatchConditions) (data : Dict) : String :=
  let fv := pyStr (pyGet data mc.fieldName? (.pstr ""))
  if mc.case_sensitive?.getD false then fv else strLower fv

/-- `evaluate_match_conditions(match_conditions, data)`: operator
dispatch on lower-cased strings when `case_sensitive` is falsy, regex
applied with `IGNORECASE` in that case, invalid regex and unknown
operators fail closed to `False`. -/
def evaluate_match_conditions (mc : MatchConditions) (data : Dict) : Bool :=
  let operator := mc.operator?.getD "contains"
  let case_sensitive := mc.case_sensitive?.getD false
  let match_value := effMatchValue mc
  let field_value := effFieldValue mc data
  if operator = "contains" then strContainsSub field_value match_value
  else if operator = "equals" then match_value == field_value
  else if operator = "starts_with" then strStarts field_value match_value
  else if operator = "ends_with" then strEnds field_value match_value
  else if operator = "regex" then
    match pyRegexCompile match_value with
    | none => false
    | some cpl => pySearch (!case_sensitive) cpl field_value
  else false

/-! ### Cost rules (`evaluate_cost_rules`, source lines 242-300) -/

/-- One entry of a conditional rule's `conditions` list, with the keys
`'if'`, `'then'`, `'else'`; `then`/`else` hold the numeric amounts the
data model prescribes. -/
structure CondEntry where
  ifExpr? : Option String := none
  thenVal? : Option ℚ := none
  elseVal? : Option ℚ := none
deriving DecidableEq, Repr, Inhabited

/-- A cost-rules dict; optional fields mirror `cost_rules.get(...)`. -/
structure CostRules where
  type? : Option String := none
  base_cost? : Option ℚ := none
  per_item_cost? : Option ℚ := none
  percentage? : Option ℚ := none
  adjustment? : Option ℚ := none
  conditions? : Option (List CondEntry) := none
deriving DecidableEq, Repr, Inhabited

/-- Replace, left to right, every non-overlapping occurrence of a
non-empty pattern. -/
def listReplace : Nat → List Char → List Char → List Char → List Char
  | 0, s, _, _ => s
  | _ + 1, [], _, _ => []
  | fuel + 1, c :: rest, pat, sub =>
      if !pat.isEmpty && pat.isPrefixOf (c :: rest) then
        sub ++ listReplace fuel ((c :: rest).drop pat.length) pat sub
      else c :: listReplace fuel rest pat sub

/-- Python `s.replace(old, new)`: all non-overlapping occurrences, left
to right; an empty `old` splices `new` around every character. -/
def pyStrReplace (s pat sub : String) : String :=
  if pat.isEmpty then
    String.mk (sub.toList ++ (s.toList.map (fun c => c :: sub.toList)).flatten)
  else String.mk (listReplace s.toList.length s.toList pat.toList sub.toList)

/-- Replace every context key occurring in the expression text by the
`str(...)` of its value, in dict insertion order (source lines 286-288). -/
def subst_variables (expr : String) (data : Dict) : String :=
  data.foldl (fun e kv => pyStrReplace e kv.1 (pyStr kv.2)) expr

/-- The substituted `'if'` expression of one conditional entry, run
through the safe expression interpreter. -/
def condEntryHolds (c : CondEntry) (data : Dict) : Bool :=
  eval_safe_expression (subst_variables (c.ifExpr?.getD "") data)

/-- The `for condition in conditions` loop: the `'then'` amount of the
first entry whose substituted expression evaluates true. -/
def eval_cond_list (conds : List CondEntry) (data : Dict) : Option ℚ :=
  match conds with
  | [] => none
  | c :: rest =>
      if condEntryHolds c data then some (c.thenVal?.getD 0)
      else eval_cond_list rest data

/-- `evaluate_cost_rules(cost_rules, data)`. `none` models an exception
escaping the function (only possible from `int(...)`/`float(...)` on a
non-numeric context value). -/
def evaluate_cost_rules (cr : CostRules) (data : Dict) : Option ℚ :=
  let rule_type := cr.type?.getD "fixed"
  if rule_type = "fixed" then some (cr.base_cost?.getD 0)
  else if rule_type = "per_item" then do
    let q ← pyInt? (pyGet data (some "quantity") (.pint 1))
    pure ((cr.per_item_cost?.getD 0) * (q : ℚ))
  else if rule_type = "percentage" then do
    let subtotal ← pyFloat? (pyGet data (some "order_subtotal") (.pint 0))
    pure (subtotal * ((cr.percentage?.getD 0) / 100))
  else if rule_type = "based_on_shipping_charged" then do
    let shipping_charged ← pyFloat? (pyGet data (some "shipping_charged") (.pint 0))
    pure (max 0 (shipping_charged + cr.adjustment?.getD 0))
  else if rule_type = "conditional" then
    let conds := cr.conditions?.getD []
    match eval_cond_list conds data with
    | some v => some v
    | none =>
        match conds.getLast? with
        | some last => some (last.elseVal?.getD (cr.base_cost?.getD 0))
        | none => some (cr.base_cost?.getD 0)
  else some 0

/-! ### Profile resolution (`match_shipping_profile`, source lines 343-356) -/

/-- A shipping profile. `id` and `name` are indexed directly
(`profile['id']`, `profile['name']`) so they are required; the other
fields mirror `profile.get(...)` accesses. -/
structure Profile where
  id : String
  name : String
  priority? : Option ℚ := none
  is_active? : Option Bool := none
  is_default? : Option Bool := none
  match_conditions? : Option MatchConditions := none
  cost_rules? : Option CostRules := none
deriving DecidableEq, Repr, Inhabited

/-- Python `{**order, **item}`: order's entries (item's value winning on
a shared key, in order's position), then item's new keys. -/
def pyMerge (order item : Dict) : Dict :=
  order.map (fun kv => (kv.1, (List.lookup kv.1 item).getD kv.2))
    ++ item.filter (fun kv => (List.lookup kv.1 order).isNone)

/-- The `for profile in profiles` loop: skip profiles whose
`is_active` is falsy (missing means active), return the first whose
match conditions hold against the merged record. -/
def match_profile_loop (item order : Dict) : List Profile → Option Profile
  | [] => none
  | p :: rest =>
      if !(p.is_active?.getD true) then match_profile_loop item order rest
      else if evaluate_match_conditions (p.match_conditions?.getD {}) (pyMerge order item) then some p
      else match_profile_loop item order rest

/-- `match_shipping_profile(item, order, profiles)`: the matching loop,
then the default fallback `next((p for p in profiles if
p.get('is_default')), None)` — over the full, unfiltered list. -/
def match_shipping_profile (item order : Dict) (profiles : List Profile) : Option Profile :=
  match match_profile_loop item order profiles with
  | some p => some p
  | none => profiles.find? (fun p => p.is_default?.getD false)

/-! ### Order aggregation (`calculate_order_shipping_cost`, lines 359-437) -/

/-- One audit entry of `matched_items`. -/
structure MatchedItem where
  item : Dict
  profile : Option Profile
  profile_id : Option String
  profile_name : String
deriving DecidableEq, Repr, Inhabited

/-- One value of the `profile_groups` dict. -/
structure Group where
  profile : Option Profile
  items : List Dict
  subtotal : ℚ
deriving DecidableEq, Repr, Inhabited

/-- One entry of the cost `breakdown`. -/
structure BreakdownEntry where
  profile_id : String
  profile_name : String
  items : List PyVal
  subtotal : ℚ
  cost : ℚ
deriving DecidableEq, Repr, Inhabited

/-- The `CalculationResult` dict the engine returns. -/
structure CalculationResult where
  total_cost : ℚ
  breakdown : List BreakdownEntry
  matched_items : List MatchedItem
deriving DecidableEq, Repr, Inhabited

/-- Sort key `p.get('priority', 100)`. -/
def priorityKey (p : Profile) : ℚ := p.priority?.getD 100

/-- Stable insertion (a new element goes before the first strictly
comparable-later element, after all equal keys seen so far). -/
def insertByPriority (p : Profile) : List Profile → List Profile
  | [] => [p]
  | q :: rest =>
      if priorityKey p ≤ priorityKey q then p :: q :: rest
      else q :: insertByPriority p rest

/-- `sorted(profiles, key=lambda p: p.get('priority', 100))`: Python's
sort is stable, and a stable ascending sort by key is unique, so
insertion sort reproduces it. -/
def sortProfiles (ps : List Profile) : List Profile :=
  ps.foldr insertByPriority []

/-- The audit entry built for one item (source lines 381-386). -/
def mkMatchedItem (order : Dict) (sorted_profiles : List Profile) (item : Dict) : MatchedItem :=
  let profile := match_shipping_profile item order sorted_profiles
  { item := item
    profile := profile
    profile_id := profile.map Profile.id
    profile_name := (profile.map Profile.name).getD "No Rule Match" }

/-- The grouping key `matched['profile_id'] or 'no_match'`: Python `or`
replaces a falsy id (`None` or the empty string) by `'no_match'`. -/
def groupKey (m : MatchedItem) : String :=
  match m.profile_id with
  | none => "no_match"
  | some s => if s = "" then "no_match" else s

/-- The in-place update `group['items'].append(item);
group['subtotal'] += t` on the entry keyed `key`. -/
def updGroup (key : String) (item : Dict) (t : ℚ) (kg : String × Group) : String × Group :=
  if kg.1 = key then (kg.1, ⟨kg.2.profile, kg.2.items ++ [item], kg.2.subtotal + t⟩) else kg

/-- Fold step of the `profile_groups` construction (source lines
389-401): create the group on first sight, then append the item and add
`float(item.get('total', 0))` to the group subtotal. -/
def addToGroups (gs : List (String × Group)) (m : MatchedItem) : Option (List (String × Group)) := do
  let key := groupKey m
  let t ← pyFloat? (pyGet m.item (some "total") (.pint 0))
  let gs1 := if (List.lookup key gs).isSome then gs
             else gs ++ [(key, ⟨m.profile, [], 0⟩)]
  pure (gs1.map (updGroup key m.item t))

/-- `profile_groups` in insertion order. -/
def buildGroups (ms : List MatchedItem) : Option (List (String × Group)) :=
  ms.foldlM addToGroups []

/-- `sum(item.get('quantity', 1) for item in group['items'])`. -/
def sumQuantities (itemsList : List Dict) : Option PyVal :=
  itemsList.foldlM (fun acc it => pyAdd? acc (pyGet it (some "quantity") (.pint 1))) (.pint 0)

/-- The `calc_data` context dict built for one group (source lines
412-418). -/
def mkCalcData (order_subtotal : ℚ) (g : Group) (qsum : PyVal) (shipping_charged : ℚ) : Dict :=
  [("order_subtotal", .pfloat order_subtotal),
   ("group_subtotal", .pfloat g.subtotal),
   ("item_count", .pint (g.items.length : Int)),
   ("quantity", qsum),
   ("shipping_charged", .pfloat shipping_charged)]

/-- The cost-calculation loop over the groups (source lines 404-430):
groups without a profile are skipped; for the rest, build `calc_data`,
evaluate the profile's cost rules, and accumulate total and breakdown. -/
def processGroups (order : Dict) : List (String × Group) → Option (ℚ × List BreakdownEntry)
  | [] => some (0, [])
  | (key, g) :: rest =>
      match g.profile with
      | none => processGroups order rest
      | some profile => do
          let qsum ← sumQuantities g.items
          let order_subtotal ← pyFloat? (pyGet order (some "subtotal") (.pint 0))
          let shipping_charged ← pyFloat? (pyGet order (some "shipping_charged") (.pint 0))
          let cost ← evaluate_cost_rules (profile.cost_rules?.getD {})
            (mkCalcData order_subtotal g qsum shipping_charged)
          let (rest_total, rest_bd) ← processGroups order rest
          pure (cost + rest_total,
                ⟨key, profile.name,
                 g.items.map (fun it => pyGet it (some "product_title") (.pstr "")),
                 g.subtotal, cost⟩ :: rest_bd)

/-- `calculate_order_shipping_cost(order, items, profiles)`. `none`
models an exception escaping the function (only possible from numeric
coercions on ill-typed order/item values). -/
def calculate_order_shipping_cost (order : Dict) (items : List Dict) (profiles : List Profile) :
    Option CalculationResult := do
  let sorted_profiles := sortProfiles profiles
  let matched_items := items.map (mkMatchedItem order sorted_profiles)
  let gs ← buildGroups matched_items
  let (total_cost, breakdown) ← processGroups order gs
  pure ⟨total_cost, breakdown, matched_items⟩

/-! ### Concrete inputs used by the example clauses of the claims -/

/-- The order of the spec's end-to-end example. -/
def exOrder : Dict :=
  [("id", .pstr "order-1"), ("subtotal", .pfloat 150), ("shipping_charged", .pfloat 20)]

/-- The two line items of the end-to-end example. -/
def exItems : List Dict :=
  [[("product_title", .pstr "2 Plug Adapter"), ("quantity", .pint 1), ("total", .pfloat 50)],
   [("product_title", .pstr "Tree Decoration"), ("quantity", .pint 2), ("total", .pfloat 100)]]

/-- The two profiles of the end-to-end example: `contains(product_title,
'2 plug') → Fixed(12)` at priority 10 and `contains(product_title,
'tree') → PerItem(15)` at priority 20. -/
def exProfiles : List Profile :=
  [{ id := "profile-1"
     name := "2 Plug Rule"
     priority? := some 10
     is_active? := some true
     match_conditions? := some { fieldName? := some "product_title"
                                 operator? := some "contains"
                                 value? := some (.pstr "2 plug") }
     cost_rules? := some { type? := some "fixed", base_cost? := some 12 } },
   { id := "profile-2"
     name := "Tree Rule"
     priority? := some 20
     is_active? := some true
     match_conditions? := some { fieldName? := some "product_title"
                                 operator? := some "contains"
                                 value? := some (.pstr "tree") }
     cost_rules? := some { type? := some "per_item", per_item_cost? := some 15 } }]

/-- The conditional rule of the spec's example:
`[{if:'order_subtotal>=100',then:0},{if:'order_subtotal>=49',then:5,else:12}]`. -/
def exCondRule : CostRules :=
  { type? := some "conditional"
    conditions? := some
      [{ ifExpr? := some "order_subtotal>=100", thenVal? := some 0 },
       { ifExpr? := some "order_subtotal>=49", thenVal? := some 5, elseVal? := some 12 }] }

/-- A profile that is inactive yet flagged as the default. -/
def inactiveDefaultProfile : Profile :=
  { id := "p1"
    name := "Inactive Default"
    priority? := some 1
    is_active? := some false
    is_default? := some true }

/-- A profile whose id is the falsy string `""` (matches titles
containing `plug`, costs 5 per item). -/
def falsyIdProfile : Profile :=
  { id := ""
    name := "Falsy Id"
    priority? := some 1
    is_active? := some true
    match_conditions? := some { fieldName? := some "product_title"
                                operator? := some "contains"
                                value? := some (.pstr "plug") }
    cost_rules? := some { type? := some "per_item", per_item_cost? := some 5 } }

/-- An item the falsy-id profile matches. -/
def plugItem : Dict :=
  [("product_title", .pstr "Plug"), ("quantity", .pint 1), ("total", .pfloat 10)]

/-- An item no profile matches. -/
def otherItem : Dict :=
  [("product_title", .pstr "Other"), ("quantity", .pint 1), ("total", .pfloat 20)]

/-- The result of the end-to-end example run. -/
def exResult : CalculationResult :=
  (calculate_order_shipping_cost exOrder exItems exProfiles).getD default

/-- Like `falsyIdProfile` but with a healthy, non-falsy id. -/
def plugProfile : Profile :=
  { id := "p9"
    name := "Plug Rule"
    priority? := some 1
    is_active? := some true
    match_conditions? := some { fieldName? := some "product_title"
                                operator? := some "contains"
                                value? := some (.pstr "plug") }
    cost_rules? := some { type? := some "per_item", per_item_cost? := some 5 } }

/-- The result of running the aggregator on a matched and an unmatched
item against the healthy profile. -/
def c6res : CalculationResult :=
  (calculate_order_shipping_cost [] [plugItem, otherItem] [plugProfile]).getD default

/-! ### Predicates for the aggregator claims -/

/-- Every profile id is non-falsy and distinct from the synthetic
`'no_match'` bucket key (true of the real data model, whose ids are
UUIDs). -/
def ProfileIdsOk (profiles : List Profile) : Prop :=
  ∀ p ∈ profiles, p.id ≠ "" ∧ p.id ≠ "no_match"

/-- The numeric coercions the aggregator performs on its inputs all
succeed: the order's `subtotal`/`shipping_charged` and each item's
`total` convert with `float(...)`, and each item's `quantity` is a
number (so `sum(...)` accepts it). -/
def WellTypedInputs (order : Dict) (items : List Dict) : Prop :=
  (pyFloat? (pyGet order (some "subtotal") (.pint 0))).isSome = true
  ∧ (pyFloat? (pyGet order (some "shipping_charged") (.pint 0))).isSome = true
  ∧ ∀ it ∈ items,
      (pyFloat? (pyGet it (some "total") (.pint 0))).isSome = true
      ∧ (toNum? (pyGet it (some "quantity") (.pint 1))).isSome = true

/-- Does a group entry carry a resolved profile? Only such entries take
part in cost computation. -/
def hasProfile (kg : String × Group) : Bool := kg.2.profile.isSome

/-- The key invariant of `profile_groups` under healthy profile ids: an
entry is keyed by the synthetic `'no_match'` bucket name exactly when it
carries no profile. -/
def GroupsInv (gs : List (String × Group)) : Prop :=
  ∀ kg ∈ gs, kg.1 = "no_match" ↔ kg.2.profile = none

/-- Healthiness of an audit list: ids are consistent with the stored
profile, and matched profiles have non-falsy, non-`'no_match'` ids. -/
def MsOk (ms : List MatchedItem) : Prop :=
  ∀ m ∈ ms, m.profile_id = m.profile.map Profile.id
    ∧ ∀ p : Profile, m.profile = some p → p.id ≠ "" ∧ p.id ≠ "no_match"

/-! ### A state-threaded rendering of the aggregator

Every operation the engine applies to its inputs (`order`, the item
dicts, the profile list) is a read; the `_st` variants below thread the
inputs through each such read and return them alongside the result, so
that "the engine mutates none of its inputs" becomes the theorem that
the threaded run returns its inputs unchanged together with the plain
result. -/

/-- The matching loop, returning the item and order dicts it read. -/
def match_profile_loop_st (item order : Dict) : List Profile → Option Profile × (Dict × Dict)
  | [] => (none, item, order)
  | p :: rest =>
      if !(p.is_active?.getD true) then match_profile_loop_st item order rest
      else
        let merged := pyMerge order item
        if evaluate_match_conditions (p.match_conditions?.getD {}) merged then (some p, item, order)
        else match_profile_loop_st item order rest

/-- The resolver, returning every input it read. -/
def match_shipping_profile_st (item order : Dict) (profiles : List Profile) :
    Option Profile × (Dict × Dict × List Profile) :=
  match match_profile_loop_st item order profiles with
  | (some p, it1, or1) => (some p, it1, or1, profiles)
  | (none, it1, or1) =>
      (profiles.find? (fun p => p.is_default?.getD false), it1, or1, profiles)

/-- The per-item matching pass, threading the order dict and the item
list. -/
def matchItems_st (order : Dict) (sorted : List Profile) :
    List Dict → List MatchedItem × List Dict × Dict
  | [] => ([], [], order)
  | it :: rest =>
      match match_shipping_profile_st it order sorted with
      | (res, it1, or1, _) =>
          let m : MatchedItem :=
            { item := it1
              profile := res
              profile_id := res.map Profile.id
              profile_name := (res.map Profile.name).getD "No Rule Match" }
          let (ms, rest1, or2) := matchItems_st or1 sorted rest
          (m :: ms, it1 :: rest1, or2)

/-- One grouping step, returning the matched item it read. -/
def addToGroups_st (gs : List (String × Group)) (m : MatchedItem) :
    Option (List (String × Group)) × MatchedItem :=
  let key := groupKey m
  match pyFloat? (pyGet m.item (some "total") (.pint 0)) with
  | none => (none, m)
  | some t =>
      let gs1 := if (List.lookup key gs).isSome then gs
                 else gs ++ [(key, ⟨m.profile, [], 0⟩)]
      (some (gs1.map (updGroup key m.item t)), m)

/-- Grouping pass, threading the matched-item list. -/
def buildGroups_st (gs : List (String × Group)) :
    List MatchedItem → Option (List (String × Group)) × List MatchedItem
  | [] => (some gs, [])
  | m :: ms =>
      match addToGroups_st gs m with
      | (none, m1) => (none, m1 :: ms)
      | (some gs1, m1) =>
          let (res, ms1) := buildGroups_st gs1 ms
          (res, m1 :: ms1)

/-- Cost pass, threading the order dict it reads twice per group. -/
def processGroups_st (order : Dict) : List (String × Group) → Option (ℚ × List BreakdownEntry) × Dict
  | [] => (some (0, []), order)
  | (key, g) :: rest =>
      match g.profile with
      | none => processGroups_st order rest
      | some profile =>
          match sumQuantities g.items with
          | none => (none, order)
          | some qsum =>
              match pyFloat? (pyGet order (some "subtotal") (.pint 0)) with
              | none => (none, order)
              | some order_subtotal =>
                  match pyFloat? (pyGet order (some "shipping_charged") (.pint 0)) with
                  | none => (none, order)
                  | some shipping_charged =>
                      match evaluate_cost_rules (profile.cost_rules?.getD {})
                        (mkCalcData order_subtotal g qsum shipping_charged) with
                      | none => (none, order)
                      | some cost =>
                          match processGroups_st order rest with
                          | (none, or1) => (none, or1)
                          | (some (rest_total, rest_bd), or1) =>
                              (some (cost + rest_total,
                                     ⟨key, profile.name,
                                      g.items.map (fun it => pyGet it (some "product_title") (.pstr "")),
                                      g.subtotal, cost⟩ :: rest_bd), or1)

/-- The full aggregator with its inputs threaded through every stage
that reads them; the returned triple is the final state of the inputs. -/
def calculate_order_shipping_cost_st (order : Dict) (items : List Dict) (profiles : List Profile) :
    Option CalculationResult × (Dict × List Dict × List Profile) :=
  let sorted := sortProfiles profiles
  match matchItems_st order sorted items with
  | (ms, items1, order1) =>
      match buildGroups_st [] ms with
      | (none, _) => (none, order1, items1, profiles)
      | (some gs, ms1) =>
          match processGroups_st order1 gs with
          | (none, order2) => (none, order2, items1, profiles)
          | (some (total_cost, breakdown), order2) =>
              (some ⟨total_cost, breakdown, ms1⟩, order2, items1, profiles)

/-! ## Theorems

Batteries marks the `Rat` arithmetic operations `@[irreducible]`, which
blocks `decide`/`rfl` evaluation of concrete engine runs; they are
restored to normal transparency for this file (the kernel is unaffected
by transparency attributes). -/

section EngineTheorems

attribute [local semireducible] Rat.add Rat.mul Rat.inv Rat.sub Rat.ofScientific

set_option maxRecDepth 100000

/-- The matching loop only ever returns a profile whose `is_active` is
not falsy. -/
theorem match_profile_loop_active (item order : Dict) (ps : List Profile) (p : Profile)
    (h : match_profile_loop item order ps = some p) : p.is_active?.getD true = true := by
  induction ps with
  | nil => simp [match_profile_loop] at h
  | cons q rest ih =>
      rw [match_profile_loop] at h
      cases hq : q.is_active?.getD true with
      | false =>
          rw [hq] at h
          simp only [Bool.not_false, if_true] at h
          exact ih h
      | true =>
          rw [hq] at h
          simp only [Bool.not_true, Bool.false_eq_true, if_false] at h
          split at h
          · cases h; exact hq
          · exact ih h

/-- C2 counterexample: with a single profile that is inactive but
flagged default, the resolver returns that inactive profile — the claim
that an inactive profile is never returned is false on the code. -/
theorem C2_counterexample_inactive_default_returned :
    match_shipping_profile [] [] [inactiveDefaultProfile] = some inactiveDefaultProfile
    ∧ inactiveDefaultProfile.is_active? = some false :=
  ⟨by decide, rfl⟩

/-- C2 (amended): profiles with falsy `is_active` are skipped by the
matching loop, so a *match* always has `is_active` truthy; but the
default fallback scans the full, unfiltered profile list, so any profile
the resolver returns is merely active-or-default-flagged, and an
inactive default can be returned. -/
theorem C2_resolver_active_or_default :
    (∀ (item order : Dict) (profiles : List Profile) (p : Profile),
        match_profile_loop item order profiles = some p → p.is_active?.getD true = true)
  ∧ (∀ (item order : Dict) (profiles : List Profile) (p : Profile),
        match_shipping_profile item order profiles = some p →
        p.is_active?.getD true = true ∨ p.is_default?.getD false = true) := by
  refine ⟨match_profile_loop_active, ?_⟩
  intro item order profiles p h
  unfold match_shipping_profile at h
  cases hl : match_profile_loop item order profiles with
  | some q =>
      rw [hl] at h
      have hqp : q = p := by simpa using h
      subst hqp
      exact Or.inl (match_profile_loop_active item order profiles q hl)
  | none =>
      rw [hl] at h
      have h2 : List.find? (fun p => p.is_default?.getD false) profiles = some p := by
        simpa using h
      have h3 := List.find?_some h2
      exact Or.inr h3

/-- C2 witness: the amended disjunction at the inactive default
profile. -/
theorem C2_resolver_active_or_default_witness :
    inactiveDefaultProfile.is_active?.getD true = true
    ∨ inactiveDefaultProfile.is_default?.getD false = true :=
  C2_resolver_active_or_default.2 [] [] [inactiveDefaultProfile] inactiveDefaultProfile (by decide)

/-- The conditional loop returns the `then` of the first entry whose
substituted expression holds. -/
theorem eval_cond_list_first (data : Dict) :
    ∀ (pre : List CondEntry) (c : CondEntry) (post : List CondEntry),
      (∀ c' ∈ pre, condEntryHolds c' data = false) → condEntryHolds c data = true →
      eval_cond_list (pre ++ c :: post) data = some (c.thenVal?.getD 0) := by
  intro pre
  induction pre with
  | nil =>
      intro c post _ hc
      simp [eval_cond_list, hc]
  | cons a pre ih =>
      intro c post hpre hc
      have ha : condEntryHolds a data = false := hpre a (by simp)
      simp only [List.cons_append, eval_cond_list, ha, Bool.false_eq_true, if_false]
      exact ih c post (fun c' hc' => hpre c' (List.mem_cons_of_mem a hc')) hc

/-- If no entry's substituted expression holds, the conditional loop
falls through. -/
theorem eval_cond_list_none (data : Dict) :
    ∀ conds : List CondEntry, (∀ c ∈ conds, condEntryHolds c data = false) →
      eval_cond_list conds data = none := by
  intro conds
  induction conds with
  | nil => intro _; rfl
  | cons a rest ih =>
      intro h
      have ha : condEntryHolds a data = false := h a (by simp)
      simp only [eval_cond_list, ha, Bool.false_eq_true, if_false]
      exact ih (fun c hc => h c (List.mem_cons_of_mem a hc))

/-- C3: a `conditional` rule returns the `then` of the first entry (in
list order) whose substituted `if` expression is true; when none holds
it returns the last entry's `else` when present, otherwise `base_cost`
(default `0`); and the spec's example rule yields 0/5/12 at subtotals
100/50/30. -/
theorem C3_conditional_first_match_else_fallback :
    (∀ (cr : CostRules) (data : Dict) (pre : List CondEntry) (c : CondEntry) (post : List CondEntry),
        cr.type? = some "conditional" →
        cr.conditions?.getD [] = pre ++ c :: post →
        (∀ c' ∈ pre, condEntryHolds c' data = false) →
        condEntryHolds c data = true →
        evaluate_cost_rules cr data = some (c.thenVal?.getD 0))
  ∧ (∀ (cr : CostRules) (data : Dict) (last : CondEntry),
        cr.type? = some "conditional" →
        (∀ c ∈ cr.conditions?.getD [], condEntryHolds c data = false) →
        (cr.conditions?.getD []).getLast? = some last →
        evaluate_cost_rules cr data = some (last.elseVal?.getD (cr.base_cost?.getD 0)))
  ∧ evaluate_cost_rules exCondRule [("order_subtotal", .pfloat 100)] = some 0
  ∧ evaluate_cost_rules exCondRule [("order_subtotal", .pfloat 50)] = some 5
  ∧ evaluate_cost_rules exCondRule [("order_subtotal", .pfloat 30)] = some 12 := by
  refine ⟨?_, ?_, by decide, by decide, by decide⟩
  · intro cr data pre c post htype hconds hpre hc
    simp only [evaluate_cost_rules, htype, Option.getD_some, reduceIte]
    rw [hconds, eval_cond_list_first data pre c post hpre hc]
    rfl
  · intro cr data last htype hall hlast
    simp only [evaluate_cost_rules, htype, Option.getD_some, reduceIte]
    rw [eval_cond_list_none data _ hall, hlast]
    rfl

/-- C3 witness: the first-match clause at the example rule and subtotal
100, and the fallback clause at subtotal 30. -/
theorem C3_conditional_first_match_else_fallback_witness :
    evaluate_cost_rules exCondRule [("order_subtotal", .pfloat 100)] = some 0
    ∧ evaluate_cost_rules exCondRule [("order_subtotal", .pfloat 30)] = some 12 :=
  ⟨C3_conditional_first_match_else_fallback.1 exCondRule [("order_subtotal", .pfloat 100)]
      [] { ifExpr? := some "order_subtotal>=100", thenVal? := some 0 }
      [{ ifExpr? := some "order_subtotal>=49", thenVal? := some 5, elseVal? := some 12 }]
      rfl rfl (by simp) (by decide),
   C3_conditional_first_match_else_fallback.2.1 exCondRule [("order_subtotal", .pfloat 30)]
      { ifExpr? := some "order_subtotal>=49", thenVal? := some 5, elseVal? := some 12 }
      rfl (by decide) rfl⟩

/-- C5: on the spec's end-to-end example (order subtotal 150 and
shipping 20; a 1× "2 Plug Adapter" and a 2× "Tree Decoration"; a
Fixed(12) profile matching "2 plug" at priority 10 and a PerItem(15)
profile matching "tree" at priority 20) the engine returns
`total_cost = 42` with exactly two breakdown groups. -/
theorem C5_end_to_end_example :
    (calculate_order_shipping_cost exOrder exItems exProfiles).map
      (fun r => (r.total_cost, r.breakdown.length)) = some (42, 2) := by
  decide

/-- C7: a `based_on_shipping_charged` rule yields
`max(0, shipping_charged + adjustment)`, hence never a negative amount,
and the spec's example (`adjustment -20`, `shipping_charged 10`)
yields `0`. -/
theorem C7_based_on_shipping_charged_clamped :
    (∀ (cr : CostRules) (data : Dict) (sc : ℚ),
        cr.type? = some "based_on_shipping_charged" →
        pyFloat? (pyGet data (some "shipping_charged") (.pint 0)) = some sc →
        evaluate_cost_rules cr data = some (max 0 (sc + cr.adjustment?.getD 0))
          ∧ ∀ q : ℚ, evaluate_cost_rules cr data = some q → 0 ≤ q)
  ∧ evaluate_cost_rules
      { type? := some "based_on_shipping_charged", adjustment? := some (-20) }
      [("shipping_charged", .pfloat 10)] = some 0 := by
  constructor
  · intro cr data sc htype hsc
    have hval : evaluate_cost_rules cr data = some (max 0 (sc + cr.adjustment?.getD 0)) := by
      simp [evaluate_cost_rules, htype, hsc]
    refine ⟨hval, ?_⟩
    intro q hq
    rw [hval] at hq
    cases hq
    exact le_max_left 0 _
  · decide

/-- C7 witness: the clamping clause applied at the example input. -/
theorem C7_based_on_shipping_charged_clamped_witness :
    evaluate_cost_rules
      { type? := some "based_on_shipping_charged", adjustment? := some (-20) }
      [("shipping_charged", .pfloat 10)] = some (max 0 (10 + (-20 : ℚ))) :=
  (C7_based_on_shipping_charged_clamped.1
    { type? := some "based_on_shipping_charged", adjustment? := some (-20) }
    [("shipping_charged", .pfloat 10)] 10 rfl (by decide)).1

/-- C10: a cost rule without a `'type'` key falls into the `'fixed'`
default, returning its `base_cost` (default `0`) for every context —
not the `0` of the unrecognized-variant branch. -/
theorem C10_missing_type_is_fixed :
    (∀ (cr : CostRules) (data : Dict), cr.type? = none →
        evaluate_cost_rules cr data = some (cr.base_cost?.getD 0))
  ∧ evaluate_cost_rules { base_cost? := some 7 } [] = some 7
  ∧ evaluate_cost_rules {} [] = some 0 := by
  refine ⟨?_, by decide, by decide⟩
  intro cr data h
  simp [evaluate_cost_rules, h]

/-- C10 witness: the default clause applied to a typeless rule with
`base_cost 7`. -/
theorem C10_missing_type_is_fixed_witness :
    evaluate_cost_rules { base_cost? := some 7 } [("quantity", .pint 3)] = some 7 :=
  C10_missing_type_is_fixed.1 { base_cost? := some 7 } [("quantity", .pint 3)] rfl

/-- C8: the aggregator is deterministic — two runs on the same order,
items and profiles produce the same `CalculationResult` (in the
embedding the engine is a pure function: the source consults no clock,
randomness or global state, Python dicts iterate in insertion order,
and `sorted` is deterministic). -/
theorem C8_calculate_deterministic :
    ∀ (order : Dict) (items : List Dict) (profiles : List Profile)
      (r1 r2 : CalculationResult),
      calculate_order_shipping_cost order items profiles = some r1 →
      calculate_order_shipping_cost order items profiles = some r2 → r1 = r2 := by
  intro o i p r1 r2 h1 h2
  rw [h1] at h2
  exact Option.some.inj h2

/-- C8 witness: two runs on the end-to-end example agree. -/
theorem C8_calculate_deterministic_witness : exResult = exResult :=
  C8_calculate_deterministic exOrder exItems exProfiles exResult exResult
    (by decide) (by decide)

/-- The threaded matching loop returns the plain loop's result and its
inputs unchanged. -/
theorem match_profile_loop_st_spec (item order : Dict) :
    ∀ ps : List Profile,
      match_profile_loop_st item order ps = (match_profile_loop item order ps, item, order) := by
  intro ps
  induction ps with
  | nil => rfl
  | cons q rest ih =>
      unfold match_profile_loop_st match_profile_loop
      cases hq : q.is_active?.getD true with
      | false => simpa [hq] using ih
      | true =>
          by_cases hm : evaluate_match_conditions (q.match_conditions?.getD {}) (pyMerge order item) = true
          · simp [hq, hm]
          · simp [hq, hm, ih]

/-- The threaded resolver returns the plain resolver's result and its
inputs unchanged. -/
theorem match_shipping_profile_st_spec (item order : Dict) (ps : List Profile) :
    match_shipping_profile_st item order ps =
      (match_shipping_profile item order ps, item, order, ps) := by
  unfold match_shipping_profile_st match_shipping_profile
  rw [match_profile_loop_st_spec item order ps]
  cases match_profile_loop item order ps <;> rfl

/-- The threaded per-item pass returns the plain audit list and its
inputs unchanged. -/
theorem matchItems_st_spec (sorted : List Profile) (order : Dict) :
    ∀ its : List Dict,
      matchItems_st order sorted its = (its.map (mkMatchedItem order sorted), its, order) := by
  intro its
  induction its with
  | nil => rfl
  | cons it rest ih =>
      unfold matchItems_st
      rw [match_shipping_profile_st_spec it order sorted]
      simp [ih, mkMatchedItem]

/-- The threaded grouping step returns the plain step's result and the
matched item unchanged. -/
theorem addToGroups_st_spec (gs : List (String × Group)) (m : MatchedItem) :
    addToGroups_st gs m = (addToGroups gs m, m) := by
  unfold addToGroups_st addToGroups
  cases ht : pyFloat? (pyGet m.item (some "total") (.pint 0)) <;> simp [ht]

/-- The threaded grouping pass returns the plain fold's result and the
matched-item list unchanged. -/
theorem buildGroups_st_spec :
    ∀ (ms : List MatchedItem) (gs : List (String × Group)),
      buildGroups_st gs ms = (List.foldlM addToGroups gs ms, ms) := by
  intro ms
  induction ms with
  | nil => intro gs; rfl
  | cons m rest ih =>
      intro gs
      unfold buildGroups_st
      rw [addToGroups_st_spec]
      cases ha : addToGroups gs m with
      | none => simp [ha]
      | some gs1 => simp [ha, ih gs1]

/-- The threaded cost pass returns the plain pass's result and the
order dict unchanged. -/
theorem processGroups_st_spec (order : Dict) :
    ∀ gs : List (String × Group),
      processGroups_st order gs = (processGroups order gs, order) := by
  intro gs
  induction gs with
  | nil => rfl
  | cons kg rest ih =>
      obtain ⟨key, g⟩ := kg
      unfold processGroups_st processGroups
      cases g.profile with
      | none => exact ih
      | some profile =>
          cases hq : sumQuantities g.items with
          | none => simp [hq]
          | some qsum =>
              cases ho : pyFloat? (pyGet order (some "subtotal") (.pint 0)) with
              | none => simp [hq, ho]
              | some ost =>
                  cases hs : pyFloat? (pyGet order (some "shipping_charged") (.pint 0)) with
                  | none => simp [hq, ho, hs]
                  | some sc =>
                      cases hc : evaluate_cost_rules (profile.cost_rules?.getD {})
                          (mkCalcData ost g qsum sc) with
                      | none => simp [hq, ho, hs, hc]
                      | some cost =>
                          rw [ih]
                          cases hr : processGroups order rest with
                          | none => simp [hq, ho, hs, hc, hr]
                          | some tb =>
                              obtain ⟨t, b⟩ := tb
                              simp [hq, ho, hs, hc, hr]

/-- C9: the aggregator mutates none of its inputs: the state-threaded
rendering, in which every read of the order dict, the item dicts, or
the profile list passes the value through, returns exactly the plain
result together with the unchanged inputs (the merged match record is a
fresh dict and expression substitution builds new strings). -/
theorem C9_calculate_no_input_mutation :
    ∀ (order : Dict) (items : List Dict) (profiles : List Profile),
      calculate_order_shipping_cost_st order items profiles =
        (calculate_order_shipping_cost order items profiles, order, items, profiles) := by
  intro order items profiles
  simp only [calculate_order_shipping_cost_st, calculate_order_shipping_cost,
             matchItems_st_spec, buildGroups_st_spec]
  cases hb : List.foldlM addToGroups [] (items.map (mkMatchedItem order (sortProfiles profiles))) with
  | none => simp [buildGroups, hb]
  | some gs =>
      simp only [processGroups_st_spec]
      cases hp : processGroups order gs with
      | none => simp [buildGroups, hb, hp]
      | some tb =>
          obtain ⟨t, b⟩ := tb
          simp [buildGroups, hb, hp]

/-- The in-place group update never changes an entry's key. -/
theorem updGroup_fst (key : String) (item : Dict) (t : ℚ) (kg : String × Group) :
    (updGroup key item t kg).1 = kg.1 := by
  unfold updGroup
  split <;> rfl

/-- The in-place group update never changes an entry's profile. -/
theorem updGroup_profile (key : String) (item : Dict) (t : ℚ) (kg : String × Group) :
    (updGroup key item t kg).2.profile = kg.2.profile := by
  unfold updGroup
  split <;> rfl

/-- Updating a key that appears nowhere is the identity. -/
theorem map_updGroup_id (key : String) (item : Dict) (t : ℚ) :
    ∀ gs : List (String × Group), (∀ kg ∈ gs, kg.1 ≠ key) →
      gs.map (updGroup key item t) = gs := by
  intro gs
  induction gs with
  | nil => intro _; rfl
  | cons kg rest ih =>
      intro h
      have hne : kg.1 ≠ key := h kg (by simp)
      simp only [List.map_cons, updGroup, if_neg hne]
      rw [ih (fun kg2 hm => h kg2 (List.mem_cons_of_mem kg hm))]

/-- The profile-carrying filter commutes with the in-place update. -/
theorem filter_map_updGroup (key : String) (item : Dict) (t : ℚ) :
    ∀ gs : List (String × Group),
      (gs.map (updGroup key item t)).filter hasProfile =
        (gs.filter hasProfile).map (updGroup key item t) := by
  intro gs
  induction gs with
  | nil => rfl
  | cons kg rest ih =>
      simp only [List.map_cons, List.filter_cons]
      cases hp : hasProfile kg with
      | false =>
          have hp2 : hasProfile (updGroup key item t kg) = false := by
            unfold hasProfile at hp ⊢
            rw [updGroup_profile]
            exact hp
          simp [hp2, ih]
      | true =>
          have hp2 : hasProfile (updGroup key item t kg) = true := by
            unfold hasProfile at hp ⊢
            rw [updGroup_profile]
            exact hp
          simp [hp2, ih]

/-- Lookup of a non-`'no_match'` key sees through the profile filter
when the groups invariant holds. -/
theorem lookup_filter_hasProfile (k : String) (hk : k ≠ "no_match") :
    ∀ gs : List (String × Group), GroupsInv gs →
      (List.lookup k (gs.filter hasProfile)).isSome = (List.lookup k gs).isSome := by
  intro gs
  induction gs with
  | nil => intro _; rfl
  | cons kg rest ih =>
      intro hinv
      have hinvr : GroupsInv rest := fun kg2 hm => hinv kg2 (List.mem_cons_of_mem kg hm)
      obtain ⟨k0, g⟩ := kg
      cases hg : g.profile with
      | none =>
          have hk0 : k0 = "no_match" := (hinv (k0, g) (by simp)).mpr hg
          have hne : (k == k0) = false := by
            rw [hk0]
            exact beq_eq_false_iff_ne.mpr hk
          have hpf : hasProfile (k0, g) = false := by
            unfold hasProfile
            rw [hg]
            rfl
          simp only [List.filter_cons, hpf, Bool.false_eq_true, if_false, List.lookup, hne]
          exact ih hinvr
      | some pr =>
          have hpf : hasProfile (k0, g) = true := by
            unfold hasProfile
            rw [hg]
            rfl
          simp only [List.filter_cons, hpf, if_true, List.lookup]
          cases hkk : k == k0 with
          | false => exact ih hinvr
          | true => rfl

/-- Groups without a profile are skipped by the cost loop: filtering
them away does not change the outcome. -/
theorem processGroups_filter (order : Dict) :
    ∀ gs : List (String × Group),
      processGroups order gs = processGroups order (gs.filter hasProfile) := by
  intro gs
  induction gs with
  | nil => rfl
  | cons kg rest ih =>
      obtain ⟨key, g⟩ := kg
      cases hg : g.profile with
      | none =>
          have hpf : hasProfile (key, g) = false := by
            unfold hasProfile
            rw [hg]
            rfl
          simp only [List.filter_cons, hpf, Bool.false_eq_true, if_false]
          rw [processGroups, hg]
          exact ih
      | some profile =>
          have hpf : hasProfile (key, g) = true := by
            unfold hasProfile
            rw [hg]
            rfl
          simp only [List.filter_cons, hpf, if_true]
          rw [processGroups, hg, processGroups, hg]
          simp only [ih]

/-- One grouping step for a matched item with a healthy profile id:
the step commutes with the profile filter and preserves the groups
invariant. -/
theorem addToGroups_filter_step (gs G2 : List (String × Group)) (m : MatchedItem)
    (hkey : groupKey m ≠ "no_match") (hprof : m.profile.isSome = true)
    (hinv : GroupsInv gs) (h : addToGroups gs m = some G2) :
    addToGroups (gs.filter hasProfile) m = some (G2.filter hasProfile) ∧ GroupsInv G2 := by
  cases ht : pyFloat? (pyGet m.item (some "total") (.pint 0)) with
  | none =>
      unfold addToGroups at h
      rw [ht] at h
      simp at h
  | some t =>
      have hx : addToGroups gs m = some
          ((if (List.lookup (groupKey m) gs).isSome then gs
            else gs ++ [(groupKey m, ⟨m.profile, [], 0⟩)]).map (updGroup (groupKey m) m.item t)) := by
        unfold addToGroups
        rw [ht]
        rfl
      rw [hx] at h
      have h2 := (Option.some.inj h).symm
      have hinv1 : GroupsInv (if (List.lookup (groupKey m) gs).isSome then gs
          else gs ++ [(groupKey m, ⟨m.profile, [], 0⟩)]) := by
        split
        · exact hinv
        · intro kg hm
          rcases List.mem_append.mp hm with hm | hm
          · exact hinv kg hm
          · have hkg : kg = (groupKey m, ⟨m.profile, [], 0⟩) := by simpa using hm
            subst hkg
            constructor
            · intro hkm
              exact absurd hkm hkey
            · intro hpn
              have hpn2 : m.profile = none := hpn
              rw [hpn2] at hprof
              cases hprof
      have hinvG2 : GroupsInv G2 := by
        rw [h2]
        intro kg hm
        rcases List.mem_map.mp hm with ⟨kg0, hkg0, rfl⟩
        rw [updGroup_fst, updGroup_profile]
        exact hinv1 kg0 hkg0
      refine ⟨?_, hinvG2⟩
      have hy : addToGroups (gs.filter hasProfile) m = some
          ((if (List.lookup (groupKey m) (gs.filter hasProfile)).isSome then gs.filter hasProfile
            else gs.filter hasProfile ++ [(groupKey m, ⟨m.profile, [], 0⟩)]).map
              (updGroup (groupKey m) m.item t)) := by
        unfold addToGroups
        rw [ht]
        rfl
      rw [hy, h2]
      have hlk := lookup_filter_hasProfile (groupKey m) hkey gs hinv
      cases hl : (List.lookup (groupKey m) gs).isSome with
      | true =>
          rw [hl] at hlk
          rw [hlk, if_pos rfl, if_pos rfl, filter_map_updGroup]
      | false =>
          rw [hl] at hlk
          rw [hlk]
          simp only [Bool.false_eq_true, if_false]
          rw [filter_map_updGroup, List.filter_append]
          have hnew : List.filter hasProfile [(groupKey m, (⟨m.profile, [], 0⟩ : Group))]
              = [(groupKey m, ⟨m.profile, [], 0⟩)] := by
            simp [List.filter_cons, hasProfile, hprof]
          rw [hnew]

/-- One grouping step for an item with no resolved profile: it only
touches the profile-less `'no_match'` bucket, so the profile filter of
the groups is unchanged, and the invariant is preserved. -/
theorem addToGroups_nomatch_step (gs G2 : List (String × Group)) (m : MatchedItem)
    (hpid : m.profile_id = none) (hprof : m.profile = none)
    (hinv : GroupsInv gs) (h : addToGroups gs m = some G2) :
    G2.filter hasProfile = gs.filter hasProfile ∧ GroupsInv G2 := by
  have hkey : groupKey m = "no_match" := by
    unfold groupKey
    rw [hpid]
  cases ht : pyFloat? (pyGet m.item (some "total") (.pint 0)) with
  | none =>
      unfold addToGroups at h
      rw [ht] at h
      simp at h
  | some t =>
      have hx : addToGroups gs m = some
          ((if (List.lookup (groupKey m) gs).isSome then gs
            else gs ++ [(groupKey m, ⟨m.profile, [], 0⟩)]).map (updGroup (groupKey m) m.item t)) := by
        unfold addToGroups
        rw [ht]
        rfl
      rw [hx] at h
      have h2 := (Option.some.inj h).symm
      have hinv1 : GroupsInv (if (List.lookup (groupKey m) gs).isSome then gs
          else gs ++ [(groupKey m, ⟨m.profile, [], 0⟩)]) := by
        split
        · exact hinv
        · intro kg hm
          rcases List.mem_append.mp hm with hm | hm
          · exact hinv kg hm
          · have hkg : kg = (groupKey m, ⟨m.profile, [], 0⟩) := by simpa using hm
            subst hkg
            constructor
            · intro _
              exact hprof
            · intro _
              exact hkey
      have hinvG2 : GroupsInv G2 := by
        rw [h2]
        intro kg hm
        rcases List.mem_map.mp hm with ⟨kg0, hkg0, rfl⟩
        rw [updGroup_fst, updGroup_profile]
        exact hinv1 kg0 hkg0
      refine ⟨?_, hinvG2⟩
      rw [h2, filter_map_updGroup]
      have hfilter1 : (if (List.lookup (groupKey m) gs).isSome then gs
          else gs ++ [(groupKey m, ⟨m.profile, [], 0⟩)]).filter hasProfile
          = gs.filter hasProfile := by
        split
        · rfl
        · rw [List.filter_append]
          have hnew : List.filter hasProfile [(groupKey m, (⟨m.profile, [], 0⟩ : Group))] = [] := by
            simp [List.filter_cons, hasProfile, hprof]
          rw [hnew, List.append_nil]
      rw [hfilter1]
      apply map_updGroup_id
      intro kg hm
      have hmem := List.mem_of_mem_filter hm
      have hpt : hasProfile kg = true := List.of_mem_filter hm
      intro hkgkey
      have hn : kg.2.profile = none := (hinv kg hmem).mp (by rw [hkgkey, hkey])
      unfold hasProfile at hpt
      rw [hn] at hpt
      cases hpt

/-- Folding the grouping step over an audit list with healthy ids: the
profile-filtered groups of the full run equal the groups of the run on
only the profile-carrying items, and the groups invariant holds. -/
theorem foldGroups_filter :
    ∀ (ms : List MatchedItem) (gs G : List (String × Group)),
      MsOk ms → GroupsInv gs →
      List.foldlM addToGroups gs ms = some G →
      List.foldlM addToGroups (gs.filter hasProfile) (ms.filter (fun m => m.profile.isSome))
          = some (G.filter hasProfile)
        ∧ GroupsInv G := by
  intro ms
  induction ms with
  | nil =>
      intro gs G _ hinv h
      have hG : gs = G := Option.some.inj h
      subst hG
      exact ⟨rfl, hinv⟩
  | cons m rest ih =>
      intro gs G hms hinv h
      rw [List.foldlM_cons] at h
      cases ha : addToGroups gs m with
      | none =>
          rw [ha] at h
          simp at h
      | some gs2 =>
          rw [ha] at h
          have h2 : List.foldlM addToGroups gs2 rest = some G := h
          have hmsr : MsOk rest := fun m2 hm2 => hms m2 (List.mem_cons_of_mem m hm2)
          have hm0 := hms m (by simp)
          cases hprof : m.profile with
          | some p =>
              have hid := hm0.2 p hprof
              have hpid : m.profile_id = some p.id := by
                rw [hm0.1, hprof]
                rfl
              have hkeyv : groupKey m = p.id := by
                unfold groupKey
                rw [hpid]
                exact if_neg hid.1
              have hkey : groupKey m ≠ "no_match" := by
                rw [hkeyv]
                exact hid.2
              have hps : m.profile.isSome = true := by
                rw [hprof]
                rfl
              obtain ⟨hstep, hinv2⟩ := addToGroups_filter_step gs gs2 m hkey hps hinv ha
              obtain ⟨hrest, hinvG⟩ := ih gs2 G hmsr hinv2 h2
              refine ⟨?_, hinvG⟩
              have hmf : (m :: rest).filter (fun m => m.profile.isSome)
                  = m :: rest.filter (fun m => m.profile.isSome) := by
                simp [List.filter_cons, hps]
              rw [hmf, List.foldlM_cons, hstep]
              exact hrest
          | none =>
              have hpid : m.profile_id = none := by
                rw [hm0.1, hprof]
                rfl
              obtain ⟨hfeq, hinv2⟩ := addToGroups_nomatch_step gs gs2 m hpid hprof hinv ha
              obtain ⟨hrest, hinvG⟩ := ih gs2 G hmsr hinv2 h2
              refine ⟨?_, hinvG⟩
              have hmf : (m :: rest).filter (fun m => m.profile.isSome)
                  = rest.filter (fun m => m.profile.isSome) := by
                simp [List.filter_cons, hprof]
              rw [hmf, ← hfeq]
              exact hrest

/-- A profile returned by the matching loop comes from the list. -/
theorem match_profile_loop_mem (item order : Dict) :
    ∀ (ps : List Profile) (p : Profile), match_profile_loop item order ps = some p → p ∈ ps := by
  intro ps
  induction ps with
  | nil =>
      intro p h
      simp [match_profile_loop] at h
  | cons q rest ih =>
      intro p h
      rw [match_profile_loop] at h
      cases hq : q.is_active?.getD true with
      | false =>
          rw [hq] at h
          simp only [Bool.not_false, if_true] at h
          exact List.mem_cons_of_mem q (ih p h)
      | true =>
          rw [hq] at h
          simp only [Bool.not_true, Bool.false_eq_true, if_false] at h
          split at h
          · cases h
            exact List.mem_cons_self q rest
          · exact List.mem_cons_of_mem q (ih p h)

/-- A profile returned by the resolver comes from the list. -/
theorem match_shipping_profile_mem (item order : Dict) (ps : List Profile) (p : Profile)
    (h : match_shipping_profile item order ps = some p) : p ∈ ps := by
  unfold match_shipping_profile at h
  cases hl : match_profile_loop item order ps with
  | some q =>
      rw [hl] at h
      have hqp : q = p := by simpa using h
      subst hqp
      exact match_profile_loop_mem item order ps q hl
  | none =>
      rw [hl] at h
      have h2 : List.find? (fun p => p.is_default?.getD false) ps = some p := by
        simpa using h
      exact List.mem_of_find?_eq_some h2

/-- Stable insertion preserves membership. -/
theorem mem_insertByPriority (p a : Profile) :
    ∀ l : List Profile, a ∈ insertByPriority p l ↔ a = p ∨ a ∈ l := by
  intro l
  induction l with
  | nil => simp [insertByPriority]
  | cons q rest ih =>
      unfold insertByPriority
      split
      · simp
      · simp only [List.mem_cons, ih]
        tauto

/-- The priority sort preserves membership. -/
theorem mem_sortProfiles (a : Profile) :
    ∀ ps : List Profile, a ∈ sortProfiles ps ↔ a ∈ ps := by
  intro ps
  induction ps with
  | nil => simp [sortProfiles]
  | cons q rest ih =>
      unfold sortProfiles at ih ⊢
      simp only [List.foldr_cons]
      rw [mem_insertByPriority]
      simp [ih]

/-- Building audit entries commutes with dropping the unresolved
items. -/
theorem map_mk_filter (order : Dict) (sorted : List Profile) :
    ∀ items : List Dict,
      (items.filter (fun it => (match_shipping_profile it order sorted).isSome)).map
          (mkMatchedItem order sorted)
        = (items.map (mkMatchedItem order sorted)).filter (fun m => m.profile.isSome) := by
  intro items
  induction items with
  | nil => rfl
  | cons it rest ih =>
      simp only [List.filter_cons, List.map_cons]
      have hmk : (mkMatchedItem order sorted it).profile = match_shipping_profile it order sorted :=
        rfl
      cases hs : (match_shipping_profile it order sorted).isSome with
      | true => simp [hmk, hs, ih]
      | false => simp [hmk, hs, ih]

/-- Inversion of one successful cost-loop step on a profile-carrying
group. -/
theorem processGroups_cons_some (order : Dict) (key : String) (g : Group) (profile : Profile)
    (rest : List (String × Group)) (t : ℚ) (bd : List BreakdownEntry)
    (hg : g.profile = some profile)
    (h : processGroups order ((key, g) :: rest) = some (t, bd)) :
    ∃ qsum ost sc cost rt rb,
      sumQuantities g.items = some qsum
      ∧ pyFloat? (pyGet order (some "subtotal") (.pint 0)) = some ost
      ∧ pyFloat? (pyGet order (some "shipping_charged") (.pint 0)) = some sc
      ∧ evaluate_cost_rules (profile.cost_rules?.getD {}) (mkCalcData ost g qsum sc) = some cost
      ∧ processGroups order rest = some (rt, rb)
      ∧ t = cost + rt
      ∧ bd = ⟨key, profile.name,
              g.items.map (fun it => pyGet it (some "product_title") (.pstr "")),
              g.subtotal, cost⟩ :: rb := by
  rw [processGroups, hg] at h
  simp only [Option.bind_eq_bind] at h
  cases hq : sumQuantities g.items with
  | none =>
      rw [hq] at h
      simp at h
  | some qsum =>
      rw [hq] at h
      simp only [Option.some_bind] at h
      cases ho : pyFloat? (pyGet order (some "subtotal") (.pint 0)) with
      | none =>
          rw [ho] at h
          simp at h
      | some ost =>
          rw [ho] at h
          simp only [Option.some_bind] at h
          cases hs : pyFloat? (pyGet order (some "shipping_charged") (.pint 0)) with
          | none =>
              rw [hs] at h
              simp at h
          | some sc =>
              rw [hs] at h
              simp only [Option.some_bind] at h
              cases hc : evaluate_cost_rules (profile.cost_rules?.getD {})
                  (mkCalcData ost g qsum sc) with
              | none =>
                  rw [hc] at h
                  simp at h
              | some cost =>
                  rw [hc] at h
                  simp only [Option.some_bind] at h
                  cases hr : processGroups order rest with
                  | none =>
                      rw [hr] at h
                      simp at h
                  | some trb =>
                      obtain ⟨rt, rb⟩ := trb
                      rw [hr] at h
                      simp only [Option.some_bind] at h
                      have h2 : (cost + rt,
                          (⟨key, profile.name,
                            g.items.map (fun it => pyGet it (some "product_title") (.pstr "")),
                            g.subtotal, cost⟩ : BreakdownEntry) :: rb) = (t, bd) :=
                        Option.some.inj h
                      cases h2
                      exact ⟨qsum, ost, sc, cost, rt, rb, rfl, rfl, rfl, hc, rfl, rfl, rfl⟩

/-- Under the groups invariant, no breakdown entry is keyed by the
synthetic `'no_match'` bucket. -/
theorem processGroups_no_nomatch (order : Dict) :
    ∀ (gs : List (String × Group)) (t : ℚ) (bd : List BreakdownEntry),
      GroupsInv gs → processGroups order gs = some (t, bd) →
      ∀ b ∈ bd, b.profile_id ≠ "no_match" := by
  intro gs
  induction gs with
  | nil =>
      intro t bd _ h b hb
      have h2 : ((0 : ℚ), ([] : List BreakdownEntry)) = (t, bd) := Option.some.inj h
      cases h2
      cases hb
  | cons kg rest ih =>
      obtain ⟨key, g⟩ := kg
      intro t bd hinv h
      have hinvr : GroupsInv rest := fun kg2 hm2 => hinv kg2 (List.mem_cons_of_mem _ hm2)
      cases hg : g.profile with
      | none =>
          rw [processGroups, hg] at h
          exact ih t bd hinvr h
      | some profile =>
          obtain ⟨qsum, ost, sc, cost, rt, rb, _, _, _, _, hr, _, hbd⟩ :=
            processGroups_cons_some order key g profile rest t bd hg h
          subst hbd
          intro b hb
          rcases List.mem_cons.mp hb with hb | hb
          · subst hb
            intro hkeq
            have hn : g.profile = none := (hinv (key, g) (by simp)).mp hkeq
            rw [hg] at hn
            cases hn
          · exact ih rt rb hinvr hr b hb

/-- The grouping fold succeeds whenever every item's `total` converts
with `float(...)`. -/
theorem foldGroups_isSome :
    ∀ (ms : List MatchedItem) (gs : List (String × Group)),
      (∀ m ∈ ms, (pyFloat? (pyGet m.item (some "total") (.pint 0))).isSome = true) →
      (List.foldlM addToGroups gs ms).isSome = true := by
  intro ms
  induction ms with
  | nil =>
      intro gs _
      rfl
  | cons m rest ih =>
      intro gs h
      rw [List.foldlM_cons]
      have ht := h m (by simp)
      cases htv : pyFloat? (pyGet m.item (some "total") (.pint 0)) with
      | none =>
          rw [htv] at ht
          cases ht
      | some t =>
          have ha : addToGroups gs m = some
              ((if (List.lookup (groupKey m) gs).isSome then gs
                else gs ++ [(groupKey m, ⟨m.profile, [], 0⟩)]).map (updGroup (groupKey m) m.item t)) := by
            unfold addToGroups
            rw [htv]
            rfl
          rw [ha]
          simp only [Option.bind_eq_bind, Option.some_bind]
          exact ih _ (fun m2 hm2 => h m2 (List.mem_cons_of_mem m hm2))

/-- Every item stored in a group by one grouping step is either the
processed matched item or was already in a group. -/
theorem addToGroups_items (gs gs2 : List (String × Group)) (m : MatchedItem)
    (h : addToGroups gs m = some gs2) :
    ∀ kg2 ∈ gs2, ∀ it ∈ kg2.2.items, it = m.item ∨ ∃ kg ∈ gs, it ∈ kg.2.items := by
  cases ht : pyFloat? (pyGet m.item (some "total") (.pint 0)) with
  | none =>
      unfold addToGroups at h
      rw [ht] at h
      simp at h
  | some t =>
      have hx : addToGroups gs m = some
          ((if (List.lookup (groupKey m) gs).isSome then gs
            else gs ++ [(groupKey m, ⟨m.profile, [], 0⟩)]).map (updGroup (groupKey m) m.item t)) := by
        unfold addToGroups
        rw [ht]
        rfl
      rw [hx] at h
      have h2 := (Option.some.inj h).symm
      intro kg2 hkg2 it hit
      rw [h2] at hkg2
      rcases List.mem_map.mp hkg2 with ⟨kg0, hkg0, hupd⟩
      subst hupd
      have hmem1 : kg0 ∈ gs ∨ kg0 = (groupKey m, (⟨m.profile, [], 0⟩ : Group)) := by
        by_cases hlk : (List.lookup (groupKey m) gs).isSome = true
        · rw [if_pos hlk] at hkg0
          exact Or.inl hkg0
        · rw [if_neg hlk] at hkg0
          rcases List.mem_append.mp hkg0 with hm | hm
          · exact Or.inl hm
          · exact Or.inr (by simpa using hm)
      by_cases hk : kg0.1 = groupKey m
      · simp only [updGroup, if_pos hk] at hit
        rcases List.mem_append.mp hit with hit | hit
        · rcases hmem1 with hm | hm
          · exact Or.inr ⟨kg0, hm, hit⟩
          · rw [hm] at hit
            simp at hit
        · exact Or.inl (by simpa using hit)
      · simp only [updGroup, if_neg hk] at hit
        rcases hmem1 with hm | hm
        · exact Or.inr ⟨kg0, hm, hit⟩
        · rw [hm] at hit
          simp at hit

/-- A per-item property of the audit list carries over to every item
stored in the built groups. -/
theorem foldGroups_items_ok (Q : Dict → Prop) :
    ∀ (ms : List MatchedItem) (gs G : List (String × Group)),
      (∀ m ∈ ms, Q m.item) →
      (∀ kg ∈ gs, ∀ it ∈ kg.2.items, Q it) →
      List.foldlM addToGroups gs ms = some G →
      ∀ kg ∈ G, ∀ it ∈ kg.2.items, Q it := by
  intro ms
  induction ms with
  | nil =>
      intro gs G _ hgs h
      have hG : gs = G := Option.some.inj h
      subst hG
      exact hgs
  | cons m rest ih =>
      intro gs G hms hgs h
      rw [List.foldlM_cons] at h
      cases ha : addToGroups gs m with
      | none =>
          rw [ha] at h
          simp at h
      | some gs2 =>
          rw [ha] at h
          have h2 : List.foldlM addToGroups gs2 rest = some G := h
          refine ih gs2 G (fun m2 hm2 => hms m2 (List.mem_cons_of_mem m hm2)) ?_ h2
          intro kg2 hkg2 it hit
          rcases addToGroups_items gs gs2 m ha kg2 hkg2 it hit with hq | ⟨kg, hkg, hitk⟩
          · subst hq
            exact hms m (by simp)
          · exact hgs kg hkg it hitk

/-- `sum(...)` over numeric quantities succeeds and yields a number
(generalized over the accumulator). -/
theorem sumQuantities_aux :
    ∀ (its : List Dict) (acc : PyVal), (toNum? acc).isSome = true →
      (∀ it ∈ its, (toNum? (pyGet it (some "quantity") (.pint 1))).isSome = true) →
      ∃ v, List.foldlM (fun acc it => pyAdd? acc (pyGet it (some "quantity") (.pint 1))) acc its
            = some v
        ∧ (toNum? v).isSome = true := by
  intro its
  induction its with
  | nil =>
      intro acc hacc _
      exact ⟨acc, rfl, hacc⟩
  | cons it rest ih =>
      intro acc hacc h
      rw [List.foldlM_cons]
      have hq := h it (by simp)
      obtain ⟨na, hna⟩ := Option.isSome_iff_exists.mp hacc
      obtain ⟨nq, hnq⟩ := Option.isSome_iff_exists.mp hq
      obtain ⟨ia, qa⟩ := na
      obtain ⟨iq, qq⟩ := nq
      have hadd : ∃ v, pyAdd? acc (pyGet it (some "quantity") (.pint 1)) = some v
          ∧ (toNum? v).isSome = true := by
        unfold pyAdd?
        rw [hna, hnq]
        cases hii : ia && iq
        · exact ⟨.pfloat (qa + qq), by simp [hii], rfl⟩
        · exact ⟨.pint (qa + qq).num, by simp [hii], rfl⟩
      obtain ⟨v, hv, hvn⟩ := hadd
      rw [hv]
      simp only [Option.bind_eq_bind, Option.some_bind]
      exact ih v hvn (fun it2 hm2 => h it2 (List.mem_cons_of_mem it hm2))

/-- `sumQuantities` succeeds on numeric quantities and yields a number. -/
theorem sumQuantities_isSome (its : List Dict)
    (h : ∀ it ∈ its, (toNum? (pyGet it (some "quantity") (.pint 1))).isSome = true) :
    ∃ v, sumQuantities its = some v ∧ (toNum? v).isSome = true :=
  sumQuantities_aux its (.pint 0) rfl h

/-- The cost evaluator never fails on a well-formed `calc_data`
context (numeric quantity sum, float subtotal and shipping). -/
theorem evaluate_cost_rules_isSome (cr : CostRules) (ost : ℚ) (g : Group) (qsum : PyVal) (sc : ℚ)
    (hq : (toNum? qsum).isSome = true) :
    (evaluate_cost_rules cr (mkCalcData ost g qsum sc)).isSome = true := by
  have hint : (pyInt? qsum).isSome = true := by
    cases qsum <;> simp_all [toNum?, pyInt?]
  simp only [evaluate_cost_rules]
  by_cases h1 : cr.type?.getD "fixed" = "fixed"
  · rw [if_pos h1]
    rfl
  · rw [if_neg h1]
    by_cases h2 : cr.type?.getD "fixed" = "per_item"
    · rw [if_pos h2]
      have hget : pyGet (mkCalcData ost g qsum sc) (some "quantity") (.pint 1) = qsum := rfl
      rw [hget]
      obtain ⟨n, hn⟩ := Option.isSome_iff_exists.mp hint
      rw [hn]
      rfl
    · rw [if_neg h2]
      by_cases h3 : cr.type?.getD "fixed" = "percentage"
      · rw [if_pos h3]
        have hget : pyGet (mkCalcData ost g qsum sc) (some "order_subtotal") (.pint 0)
            = .pfloat ost := rfl
        rw [hget]
        rfl
      · rw [if_neg h3]
        by_cases h4 : cr.type?.getD "fixed" = "based_on_shipping_charged"
        · rw [if_pos h4]
          have hget : pyGet (mkCalcData ost g qsum sc) (some "shipping_charged") (.pint 0)
              = .pfloat sc := rfl
          rw [hget]
          rfl
        · rw [if_neg h4]
          by_cases h5 : cr.type?.getD "fixed" = "conditional"
          · rw [if_pos h5]
            cases hcl : eval_cond_list (cr.conditions?.getD []) (mkCalcData ost g qsum sc) with
            | some v => rfl
            | none =>
                cases hgl : (cr.conditions?.getD []).getLast? with
                | some last => rfl
                | none => rfl
          · rw [if_neg h5]
            rfl

/-- The cost loop never fails on groups whose items carry numeric
quantities when the order's floats convert. -/
theorem processGroups_isSome (order : Dict)
    (hsub : (pyFloat? (pyGet order (some "subtotal") (.pint 0))).isSome = true)
    (hship : (pyFloat? (pyGet order (some "shipping_charged") (.pint 0))).isSome = true) :
    ∀ gs : List (String × Group),
      (∀ kg ∈ gs, ∀ it ∈ kg.2.items, (toNum? (pyGet it (some "quantity") (.pint 1))).isSome = true) →
      (processGroups order gs).isSome = true := by
  intro gs
  induction gs with
  | nil =>
      intro _
      rfl
  | cons kg rest ih =>
      obtain ⟨key, g⟩ := kg
      intro h
      have hrest := ih (fun kg2 hm2 => h kg2 (List.mem_cons_of_mem _ hm2))
      rw [processGroups]
      cases hg : g.profile with
      | none => exact hrest
      | some profile =>
          simp only [Option.bind_eq_bind]
          obtain ⟨qsum, hqs, hqn⟩ :=
            sumQuantities_isSome g.items (fun it hit => h (key, g) (by simp) it hit)
          obtain ⟨ost, host⟩ := Option.isSome_iff_exists.mp hsub
          obtain ⟨sc, hsc⟩ := Option.isSome_iff_exists.mp hship
          rw [hqs]
          simp only [Option.some_bind]
          rw [host]
          simp only [Option.some_bind]
          rw [hsc]
          simp only [Option.some_bind]
          obtain ⟨cost, hcost⟩ := Option.isSome_iff_exists.mp
            (evaluate_cost_rules_isSome (profile.cost_rules?.getD {}) ost g qsum sc hqn)
          rw [hcost]
          simp only [Option.some_bind]
          obtain ⟨tb, htb⟩ := Option.isSome_iff_exists.mp hrest
          obtain ⟨rt, rb⟩ := tb
          rw [htb]
          simp only [Option.some_bind]
          rfl

/-- C6 counterexample: with a profile whose id is the falsy string `""`
(so Python's `matched['profile_id'] or 'no_match'` sends its items to
the synthetic bucket), an item the resolver does NOT match is absorbed
into that profile's costed bucket: adding the unmatched item raises
`total_cost` from 5 to 10 (it contributes the per-item cost) and its
title appears in a breakdown entry — refuting "contributes 0 and
produces no breakdown entry" as universally stated. -/
theorem C6_counterexample_falsy_id_absorbs_unmatched :
    match_shipping_profile otherItem [] [falsyIdProfile] = none
    ∧ (calculate_order_shipping_cost [] [plugItem, otherItem] [falsyIdProfile]).map
        (fun r => (r.total_cost, r.breakdown.map (fun b => b.items))) =
      some (10, [[.pstr "Plug", .pstr "Other"]])
    ∧ (calculate_order_shipping_cost [] [plugItem] [falsyIdProfile]).map
        (fun r => r.total_cost) = some 5 :=
  ⟨by decide, by decide, by decide⟩

/-- C6 (amended): provided every profile id is non-empty and distinct
from `'no_match'` (true of the real data model, whose ids are UUIDs),
items with no resolved profile contribute nothing: dropping them leaves
`total_cost` and `breakdown` unchanged, each of them still appears in
the audit list as `profile_id = null` / `'No Rule Match'`, no breakdown
entry is keyed `'no_match'`; and on numerically well-typed inputs the
calculation always returns a result. Without the id proviso a profile
with id `''` or `'no_match'` shares the internal bucket with unmatched
items and can absorb them into its costed group. -/
theorem C6_no_match_items_excluded_but_audited :
    (∀ (order : Dict) (items : List Dict) (profiles : List Profile) (r : CalculationResult),
        ProfileIdsOk profiles →
        calculate_order_shipping_cost order items profiles = some r →
        calculate_order_shipping_cost order
            (items.filter (fun it => (match_shipping_profile it order (sortProfiles profiles)).isSome))
            profiles
          = some ⟨r.total_cost, r.breakdown,
              (items.filter (fun it => (match_shipping_profile it order (sortProfiles profiles)).isSome)).map
                (mkMatchedItem order (sortProfiles profiles))⟩
        ∧ (∀ it ∈ items, match_shipping_profile it order (sortProfiles profiles) = none →
            (⟨it, none, none, "No Rule Match"⟩ : MatchedItem) ∈ r.matched_items)
        ∧ (∀ b ∈ r.breakdown, b.profile_id ≠ "no_match"))
  ∧ (∀ (order : Dict) (items : List Dict) (profiles : List Profile),
        WellTypedInputs order items →
        (calculate_order_shipping_cost order items profiles).isSome = true) := by
  constructor
  · intro order items profiles r hid hcalc
    have hcalc' := hcalc
    simp only [calculate_order_shipping_cost, buildGroups, Option.bind_eq_bind] at hcalc'
    cases hbg : List.foldlM addToGroups []
        (items.map (mkMatchedItem order (sortProfiles profiles))) with
    | none =>
        rw [hbg] at hcalc'
        simp at hcalc'
    | some G =>
        rw [hbg] at hcalc'
        simp only [Option.some_bind] at hcalc'
        cases hpg : processGroups order G with
        | none =>
            rw [hpg] at hcalc'
            simp at hcalc'
        | some tb =>
            obtain ⟨t, bd⟩ := tb
            rw [hpg] at hcalc'
            simp only [Option.some_bind] at hcalc'
            have hr : r = ⟨t, bd, items.map (mkMatchedItem order (sortProfiles profiles))⟩ :=
              (Option.some.inj hcalc').symm
            subst hr
            have hms : MsOk (items.map (mkMatchedItem order (sortProfiles profiles))) := by
              intro m hm
              rcases List.mem_map.mp hm with ⟨it, hit, rfl⟩
              constructor
              · rfl
              · intro p hp
                have hp2 : match_shipping_profile it order (sortProfiles profiles) = some p := hp
                have hpmem := match_shipping_profile_mem it order (sortProfiles profiles) p hp2
                exact hid p ((mem_sortProfiles p profiles).mp hpmem)
            obtain ⟨hfold, hinvG⟩ :=
              foldGroups_filter (items.map (mkMatchedItem order (sortProfiles profiles))) [] G
                hms (by intro kg hm; cases hm) hbg
            have hfold2 : List.foldlM addToGroups []
                ((items.map (mkMatchedItem order (sortProfiles profiles))).filter
                  (fun m => m.profile.isSome))
                = some (G.filter hasProfile) := hfold
            refine ⟨?_, ?_, ?_⟩
            · simp only [calculate_order_shipping_cost, buildGroups, Option.bind_eq_bind]
              rw [map_mk_filter order (sortProfiles profiles) items, hfold2]
              simp only [Option.some_bind]
              rw [← processGroups_filter order G, hpg]
              simp only [Option.some_bind]
              rfl
            · intro it hit hres
              have hmk : mkMatchedItem order (sortProfiles profiles) it
                  = ⟨it, none, none, "No Rule Match"⟩ := by
                unfold mkMatchedItem
                rw [hres]
                rfl
              have := List.mem_map_of_mem (mkMatchedItem order (sortProfiles profiles)) hit
              rw [hmk] at this
              exact this
            · exact processGroups_no_nomatch order G t bd hinvG hpg
  · intro order items profiles hwt
    obtain ⟨hsub, hship, hitems⟩ := hwt
    simp only [calculate_order_shipping_cost, buildGroups, Option.bind_eq_bind]
    have htot : ∀ m ∈ items.map (mkMatchedItem order (sortProfiles profiles)),
        (pyFloat? (pyGet m.item (some "total") (.pint 0))).isSome = true := by
      intro m hm
      rcases List.mem_map.mp hm with ⟨it, hit, rfl⟩
      exact (hitems it hit).1
    obtain ⟨G, hG⟩ := Option.isSome_iff_exists.mp
      (foldGroups_isSome (items.map (mkMatchedItem order (sortProfiles profiles))) [] htot)
    rw [hG]
    simp only [Option.some_bind]
    have hgo : ∀ kg ∈ G, ∀ it ∈ kg.2.items,
        (toNum? (pyGet it (some "quantity") (.pint 1))).isSome = true := by
      refine foldGroups_items_ok _ (items.map (mkMatchedItem order (sortProfiles profiles)))
        [] G ?_ ?_ hG
      · intro m hm
        rcases List.mem_map.mp hm with ⟨it, hit, rfl⟩
        exact (hitems it hit).2
      · intro kg hm
        cases hm
    obtain ⟨tb, htb⟩ := Option.isSome_iff_exists.mp (processGroups_isSome order hsub hship G hgo)
    obtain ⟨t, bd⟩ := tb
    rw [htb]
    simp only [Option.some_bind]
    rfl

/-- C6 witness: the amended clauses at a healthy-id profile with one
matched and one unmatched item — the unmatched item is audited as
`'No Rule Match'` and dropping it leaves total and breakdown intact. -/
theorem C6_no_match_items_excluded_but_audited_witness :
    (⟨otherItem, none, none, "No Rule Match"⟩ : MatchedItem) ∈ c6res.matched_items
    ∧ (calculate_order_shipping_cost [] [plugItem, otherItem] [plugProfile]).isSome = true :=
  ⟨((C6_no_match_items_excluded_but_audited.1 [] [plugItem, otherItem] [plugProfile] c6res
      (by unfold ProfileIdsOk; decide) (by decide)).2.1 otherItem (by decide) (by decide)),
   C6_no_match_items_excluded_but_audited.2 [] [plugItem, otherItem] [plugProfile]
     (by unfold WellTypedInputs; refine ⟨by decide, by decide, by decide⟩)⟩

end EngineTheorems

end ShipEngine
